import Mathlib

/-!
# gnupg-pkcs11-scd-proxy-server: accept/dispatch loop

A shallow embedding of `gnupg-pkcs11-scd-proxy-server.c` (function `main` and the two
signal handlers) and the properties of its startup sequence, accept loop, child set-up
and child reaping.

The program is modelled as a deterministic machine driven by the operating system:
the startup part of `main` (straight-line code) is a function of the results the
startup system calls give; the accept loop is a step function that consumes one
event at a time, an event being either the delivery of SIGTERM/SIGINT (the handler
`sigterm` runs) or the execution of the next statement of the program, together with
the result of the system call that statement makes.
-/

namespace ScdProxy

/-! ## Definitions -/

/-- Values the program takes from system headers: `sizeof(addr.sun_path)`, the errno
values `EINTR` and `EAGAIN`, and `SOMAXCONN`. -/
structure Sys where
  sizeof_sun_path : Nat
  EINTR : Nat
  EAGAIN : Nat
  SOMAXCONN : Int

/-- The values on Linux/glibc. -/
def linux : Sys :=
  { sizeof_sun_path := 108, EINTR := 4, EAGAIN := 11, SOMAXCONN := 4096 }

/-- Conversion of an unsigned value to `int` (32 bits, two's complement). -/
def toInt32 (n : Nat) : Int :=
  if n % 2 ^ 32 < 2 ^ 31 then ((n % 2 ^ 32 : Nat) : Int)
  else ((n % 2 ^ 32 : Nat) : Int) - 2 ^ 32

/-- Output of the conversion `%d` for an `int`. -/
def fmt_d (x : Int) : String :=
  if x < 0 then "-" ++ Nat.repr x.natAbs else Nat.repr x.natAbs

/-- The string that `sprintf(uid_string, "%d", ucred.uid)` writes: `ucred.uid` is an
unsigned 32-bit `uid_t`, and `%d` reads the argument as an `int`. -/
def uid_string (uid : Nat) : String :=
  fmt_d (toInt32 uid)

/-- Arguments that `execl` passes to the new program: the variadic list ends at the
first `NULL`. -/
def execlArgv : List (Option String) → List String
  | [] => []
  | none :: _ => []
  | some a :: rest => a :: execlArgv rest

/-- What an open descriptor refers to. -/
inductive Obj
  | tty
  | devnull
  | listener
  | conn (iter : Nat)
  deriving DecidableEq, Repr

/-- Descriptor table of a process: `none` is a closed descriptor. -/
abbrev FdTable := Int → Option Obj

/-- Table of a process started with the three standard streams open. -/
def stdio : FdTable := fun d => if 0 ≤ d ∧ d ≤ 2 then some Obj.tty else none

/-- A system call that returns a new descriptor `r` for `o` (`-1` is failure). -/
def fdOpen (t : FdTable) (r : Int) (o : Obj) : FdTable :=
  if r = -1 then t else fun d => if d = r then some o else t d

/-- Effect of `close(d)`. -/
def fdClose (t : FdTable) (d : Int) : FdTable :=
  fun x => if x = d then none else t x

/-- Effect of `dup2(oldfd, newfd)`: fails without effect when `oldfd` is not open, does
nothing when both are equal, and otherwise makes `newfd` refer to what `oldfd` refers. -/
def fdDup2 (t : FdTable) (oldfd newfd : Int) : FdTable :=
  match t oldfd with
  | none => t
  | some o => if oldfd = newfd then t else fun d => if d = newfd then some o else t d

/-- Variables of `main` set by option parsing. `scd_config` is `none` when the option
`--scd-config` was not given (the C pointer is `NULL`). -/
structure Config where
  socket_name : String
  scd_bin : String
  socket_group : String
  scd_config : Option String

/-- Results of the system calls of the startup part of `main`. `getgrnam` is `none`
when the group does not exist, otherwise the group id; the others are the returned
integers (`-1` is failure). -/
structure StartupEnv where
  getgrnam : Option Nat
  open_null : Int
  unlink : Int
  socket : Int
  bind : Int
  listen : Int
  chown : Int
  chmod : Int

/-- Calls made by the program, with their arguments (and results where the program
reads them), and the two things that happen to the shutdown flag: the handler
`sigterm` setting it, and the loop header reading it. -/
inductive Call
  | report (msg : String)
  | getgrnam (name : String)
  | signal_sigchld
  | sigaction_sigterm
  | sigaction_sigint
  | open_null (r : Int)
  | unlink (path : String)
  | socket (r : Int)
  | bind (fd : Int) (path : String)
  | listen (fd : Int) (backlog : Int)
  | chown (path : String) (gid : Nat)
  | chmod (path : String) (mode : Nat)
  | sigterm
  | read_s_stop (set : Bool)
  | accept (fd : Int) (r : Int)
  | getsockopt (accepted : Int) (r : Int)
  | fork (r : Int)
  | getrlimit (r : Int)
  | dup2 (oldfd newfd : Int)
  | close (fd : Int)
  | execl (path : String) (argv : List String)
  | exit (status : Int)
  deriving DecidableEq, Repr

/-- Where the process is. `header` is the evaluation of `while(!s_stop)`; `accept`,
`getsockopt`, `fork`, `child_getrlimit` and `child_execl` are the points where the call
of that name is the next statement; `returned` is `main` having returned `ret`;
`child_exited status` is the child after `exit(status)`; `child_execed` is the child after a
successful `execl`. -/
inductive Pc
  | header
  | accept
  | getsockopt
  | fork
  | child_getrlimit
  | child_execl
  | returned
  | child_exited (status : Int)
  | child_execed
  deriving DecidableEq, Repr

/-- State of the process. `iter` counts the evaluations of the loop header, so that
every log entry carries the number of the loop iteration it belongs to (0 for
startup); `fds` is the descriptor table the kernel keeps for the process. -/
structure State where
  pc : Pc
  s_stop : Int
  fd : Int
  null : Int
  ret : Int
  socket_gid : Nat
  accepted : Int
  uid : Nat
  argv : List String
  iter : Nat
  fds : FdTable
  trace : List (Nat × Call)

/-- Appends a call to the log, stamped with the current iteration. -/
def log (s : State) (c : Call) : State :=
  { s with trace := s.trace ++ [(s.iter, c)] }

/-- The statement `close(d)`. -/
def closeFd (s : State) (d : Int) : State :=
  log { s with fds := fdClose s.fds d } (Call.close d)

/-- The statement `dup2(oldfd, newfd)`. -/
def dup2 (s : State) (oldfd newfd : Int) : State :=
  log { s with fds := fdDup2 s.fds oldfd newfd } (Call.dup2 oldfd newfd)

/-- Label `cleanup:` of `main`: closes `null` and `fd` when they are open and returns
`ret`. -/
def cleanup (s : State) : State :=
  let s1 := if s.null ≠ -1 then closeFd s s.null else s
  let s2 := if s1.fd ≠ -1 then closeFd s1 s1.fd else s1
  { s2 with pc := Pc.returned }

/-- Label `cleanup1:` at the end of the loop body: closes `accepted` when it is a
descriptor; control then goes to the loop header. -/
def cleanup1 (s : State) : State :=
  let s1 := if s.accepted ≠ -1 then closeFd s s.accepted else s
  { s1 with pc := Pc.header }

/-- The loop `for (i = 3; i < (int)rlim.rlim_cur; i++) close(i);` entered at `i` with
`n` iterations to go. -/
def closeFrom (s : State) (i : Int) : Nat → State
  | 0 => s
  | n + 1 => closeFrom (closeFd s i) (i + 1) n

/-- The loop `for (i = 3; i < (int)rlim.rlim_cur; i++) close(i);`: it runs
`lim - 3` times when `lim = (int)rlim.rlim_cur` is above 3 and not at all otherwise. -/
def closeLoop (s : State) (lim : Int) : State :=
  closeFrom s 3 (lim - 3).toNat

/-- The statement `exit(status)` of the child. -/
def childExit (s : State) (status : Int) : State :=
  { log s (Call.exit status) with pc := Pc.child_exited status }

/-- The C function `strlen`: number of bytes before the terminating NUL. -/
def strlen (s : String) : Nat := s.utf8ByteSize

/-- The test `strlen (socket_name) + 1 >= sizeof (addr.sun_path)` of `main`. -/
def socketNameTooLong (sys : Sys) (socket_name : String) : Bool :=
  decide (strlen socket_name + 1 ≥ sys.sizeof_sun_path)

/-- State at entry of `main`, after option parsing: `fd = -1`, `null = -1`, `ret = 1`,
`s_stop = 0`. -/
def init : State :=
  { pc := Pc.header, s_stop := 0, fd := -1, null := -1, ret := 1, socket_gid := 0,
    accepted := -1, uid := 0, argv := [], iter := 0, fds := stdio, trace := [] }

/-- The part of `main` from the check of `scd_config` up to the accept loop. The
result is either the state at the first evaluation of the loop header, or the state
after `goto cleanup` (`main` has returned). -/
def startup (sys : Sys) (cfg : Config) (env : StartupEnv) : State :=
  match cfg.scd_config with
  | none => cleanup (log init (Call.report "--scd-config is missing"))
  | some _ =>
    let s1 := log init (Call.getgrnam cfg.socket_group)
    match env.getgrnam with
    | none => cleanup (log s1 (Call.report "cannot resolve group"))
    | some gid =>
      let s2 := { s1 with socket_gid := gid }
      let s3 := log (log (log s2 Call.signal_sigchld) Call.sigaction_sigterm)
        Call.sigaction_sigint
      let s4 := log { s3 with null := env.open_null,
                              fds := fdOpen s3.fds env.open_null Obj.devnull }
        (Call.open_null env.open_null)
      if s4.null = -1 then cleanup (log s4 (Call.report "open null"))
      else if socketNameTooLong sys cfg.socket_name then
        cleanup (log s4 (Call.report "Socket too long"))
      else
        let s5 := log s4 (Call.unlink cfg.socket_name)
        let s6 := log { s5 with fd := env.socket,
                                fds := fdOpen s5.fds env.socket Obj.listener }
          (Call.socket env.socket)
        if s6.fd = -1 then cleanup (log s6 (Call.report "socket"))
        else
          let s7 := log s6 (Call.bind s6.fd cfg.socket_name)
          if env.bind = -1 then cleanup (log s7 (Call.report "Cannot bind"))
          else
            let s8 := log s7 (Call.listen s7.fd sys.SOMAXCONN)
            if env.listen = -1 then cleanup (log s8 (Call.report "Cannot listen"))
            else
              let s9 := log s8 (Call.chown cfg.socket_name s8.socket_gid)
              if env.chown = -1 then cleanup (log s9 (Call.report "Cannot chown"))
              else
                let s10 := log s9 (Call.chmod cfg.socket_name 0o660)
                if env.chmod = -1 then cleanup (log s10 (Call.report "Cannot chmod"))
                else { s10 with pc := Pc.header }

/-- What happens next. `sigterm`: SIGTERM or SIGINT is delivered and the handler
`sigterm` runs. `step r aux`: the program executes its next statement; when that is a
system call, `r` is what it returns and `aux` is what it leaves beside the return
value: `errno` for a failed `accept`, `ucred.uid` for `getsockopt`, `rlim.rlim_cur`
for `getrlimit` (`r` and `aux` are not read otherwise). -/
inductive Ev
  | sigterm
  | step (r : Int) (aux : Nat)
  deriving DecidableEq, Repr

/-- The handler `sigterm`: `s_stop = 1`. -/
def sigterm (s : State) : State :=
  log { s with s_stop := 1 } Call.sigterm

/-- One transition of the process. A process that has returned, exited or replaced
its image does nothing more. -/
def step (sys : Sys) (cfg : Config) (s : State) (e : Ev) : State :=
  match s.pc, e with
  | Pc.returned, _ => s
  | Pc.child_exited _, _ => s
  | Pc.child_execed, _ => s
  | _, Ev.sigterm => sigterm s
  | Pc.header, Ev.step _ _ =>
    -- while(!s_stop) { ... int accepted = -1; ... }  ret = 0; cleanup: ...
    let s1 := log { s with iter := s.iter + 1 } (Call.read_s_stop (decide (s.s_stop ≠ 0)))
    if s1.s_stop = 0 then { s1 with accepted := -1, pc := Pc.accept }
    else cleanup { s1 with ret := 0 }
  | Pc.accept, Ev.step r errno =>
    -- if ((accepted = accept(fd, NULL, NULL)) == -1) { ... }
    let s1 := log { s with accepted := r, fds := fdOpen s.fds r (Obj.conn s.iter) }
      (Call.accept s.fd r)
    if s1.accepted = -1 then
      if errno ≠ sys.EINTR ∧ errno ≠ sys.EAGAIN then cleanup (log s1 (Call.report "accept"))
      else cleanup1 s1
    else { s1 with pc := Pc.getsockopt }
  | Pc.getsockopt, Ev.step r uid =>
    -- if (getsockopt(accepted, SOL_SOCKET, SO_PEERCRED, &ucred, &len) == -1) { ... }
    let s1 := log s (Call.getsockopt s.accepted r)
    if r = -1 then cleanup1 (log s1 (Call.report "getsockopt"))
    else { s1 with uid := uid % 2 ^ 32, pc := Pc.fork }
  | Pc.fork, Ev.step r _ =>
    -- if ((pid = fork()) == -1) { ... }  if (pid == 0) { ... }  cleanup1: ...
    let s1 := log s (Call.fork r)
    if r = -1 then cleanup (log s1 (Call.report "fork"))
    else if r = 0 then { s1 with pc := Pc.child_getrlimit }
    else cleanup1 s1
  | Pc.child_getrlimit, Ev.step r rlim_cur =>
    -- if (getrlimit(RLIMIT_NOFILE, &rlim) == -1) { ... }  sprintf; dup2; dup2; for ...
    let s1 := log s (Call.getrlimit r)
    if r = -1 then childExit (log s1 (Call.report "getrlimit")) 1
    else
      let s2 := { s1 with argv := execlArgv [some cfg.scd_bin, some "--multi-server",
        some "--options", cfg.scd_config, some "--uid-acl", some (uid_string s1.uid)] }
      let s3 := dup2 (dup2 s2 s2.accepted 0) s2.accepted 1
      let s4 := closeLoop s3 (toInt32 (rlim_cur % 2 ^ 64))
      { s4 with pc := Pc.child_execl }
  | Pc.child_execl, Ev.step r _ =>
    -- execl(scd_bin, scd_bin, "--multi-server", ...); fprintf(stderr, ...); exit(1);
    let s1 := log s (Call.execl cfg.scd_bin s.argv)
    if r = -1 then childExit (log s1 (Call.report "Cannot execute")) 1
    else { s1 with pc := Pc.child_execed }

/-- The process after the events `evs`, from state `s`. -/
def run (sys : Sys) (cfg : Config) (s : State) (evs : List Ev) : State :=
  evs.foldl (step sys cfg) s

/-- The function `main` after option parsing: startup, then the accept loop driven by
the events `evs`. -/
def main (sys : Sys) (cfg : Config) (env : StartupEnv) (evs : List Ev) : State :=
  run sys cfg (startup sys cfg env) evs

/-- Exit status of the process, once it has one. -/
def exitStatus (s : State) : Option Int :=
  match s.pc with
  | Pc.returned => some s.ret
  | Pc.child_exited status => some status
  | _ => none

/-- A child of the server in the process table of the kernel: its process id and
whether it has terminated and waits to be reaped. -/
structure Child where
  pid : Nat
  zombie : Bool
  deriving DecidableEq, Repr

/-- Process ids of the terminated children that are not reaped yet. -/
def zombiePids (t : List Child) : List Nat :=
  (t.filter (fun c => c.zombie)).map (fun c => c.pid)

/-- The call `wait(&status)`. When some child has terminated, the kernel takes one
terminated child (`pick` stands for its choice), removes it from the process table
and returns its process id. When none has terminated nothing is reaped (the call
blocks, or fails when there is no child at all). -/
def wait (pick : Nat) (t : List Child) : Option Nat × List Child :=
  match zombiePids t with
  | [] => (none, t)
  | p :: ps =>
    let pid := (p :: ps).getD (pick % (ps.length + 1)) p
    (some pid, t.eraseP (fun c => c.zombie && c.pid == pid))

/-- The handler `sigchld`: one call `wait(&status)`, the status is discarded. -/
def sigchld (pick : Nat) (t : List Child) : List Child :=
  (wait pick t).2

/-- A call `fork`. -/
def Call.isFork : Call → Bool
  | Call.fork _ => true
  | _ => false

/-- A call `getsockopt` that gave the peer credentials. -/
def Call.isCredOk : Call → Bool
  | Call.getsockopt _ r => decide (r ≠ -1)
  | _ => false

/-- A call `getsockopt` that failed. -/
def Call.isCredFail : Call → Bool
  | Call.getsockopt _ r => decide (r = -1)
  | _ => false

/-- A call of the dispatch of a connection: `accept`, `getsockopt` or `fork`. -/
def Call.isDispatch : Call → Bool
  | Call.accept _ _ => true
  | Call.getsockopt _ _ => true
  | Call.fork _ => true
  | _ => false

/-- A step of the socket set-up: group resolution, removal of the stale file, `socket`,
`bind`, `listen`, `chown`, `chmod`. -/
def Call.isSetup : Call → Bool
  | Call.getgrnam _ => true
  | Call.unlink _ => true
  | Call.socket _ => true
  | Call.bind _ _ => true
  | Call.listen _ _ => true
  | Call.chown _ _ => true
  | Call.chmod _ _ => true
  | _ => false

/-- Number of entries of iteration `i` in the log that satisfy `p`. -/
def countAt (p : Call → Bool) (i : Nat) (tr : List (Nat × Call)) : Nat :=
  tr.countP (fun x => decide (x.1 = i) && p x.2)

/-- The setup steps of a log, in the order they were made. -/
def setupCalls (tr : List (Nat × Call)) : List Call :=
  (tr.map (fun x => x.2)).filter Call.isSetup

/-- The process is the child of a `fork`. -/
def Pc.inChild : Pc → Bool
  | Pc.child_getrlimit => true
  | Pc.child_execl => true
  | Pc.child_exited _ => true
  | Pc.child_execed => true
  | _ => false

/-- The setup steps in the order of the specification, each with whether it succeeded;
the result of the removal of the stale file is not looked at. -/
def setupOrder (sys : Sys) (cfg : Config) (env : StartupEnv) : List (Call × Bool) :=
  [ (Call.getgrnam cfg.socket_group, env.getgrnam.isSome),
    (Call.unlink cfg.socket_name, true),
    (Call.socket env.socket, decide (env.socket ≠ -1)),
    (Call.bind env.socket cfg.socket_name, decide (env.bind ≠ -1)),
    (Call.listen env.socket sys.SOMAXCONN, decide (env.listen ≠ -1)),
    (Call.chown cfg.socket_name (env.getgrnam.getD 0), decide (env.chown ≠ -1)),
    (Call.chmod cfg.socket_name 0o660, decide (env.chmod ≠ -1)) ]

/-- The steps of a sequence up to and including the first one that failed. -/
def upToFirstFailure : List (Call × Bool) → List Call
  | [] => []
  | (c, ok) :: rest => c :: (if ok then upToFirstFailure rest else [])

/-- Every step of the socket set-up that is checked succeeded, with the configuration
file given, `/dev/null` opened and the socket path short enough. -/
def startupOk (sys : Sys) (cfg : Config) (env : StartupEnv) : Prop :=
  cfg.scd_config ≠ none ∧ env.getgrnam ≠ none ∧ env.open_null ≠ -1 ∧
  socketNameTooLong sys cfg.socket_name = false ∧ env.socket ≠ -1 ∧ env.bind ≠ -1 ∧
  env.listen ≠ -1 ∧ env.chown ≠ -1 ∧ env.chmod ≠ -1

/-- Log entries of `n` calls `close` from descriptor `i` on, in iteration `it`. -/
def closeLog (it : Nat) (i : Int) : Nat → List (Nat × Call)
  | 0 => []
  | n + 1 => (it, Call.close i) :: closeLog it (i + 1) n

/-- Log entries of the label `cleanup:`. -/
def cleanupLog (s : State) : List (Nat × Call) :=
  (if s.null ≠ -1 then [(s.iter, Call.close s.null)] else []) ++
  (if s.fd ≠ -1 then [(s.iter, Call.close s.fd)] else [])

/-- Log entries of the label `cleanup1:`. -/
def cleanup1Log (s : State) : List (Nat × Call) :=
  if s.accepted ≠ -1 then [(s.iter, Call.close s.accepted)] else []

/-- A piece of log that holds calls of `close` only, all in iteration `it`. -/
def Closes (it : Nat) (l : List (Nat × Call)) : Prop :=
  ∀ x ∈ l, x.1 = it ∧ ∃ d, x.2 = Call.close d

/-- The variable `ret` is 1 until the loop header reads the flag set; it is 0 only when
`main` has returned after that. -/
def RetInv (s : State) : Prop :=
  (s.pc = Pc.returned ∧ s.ret = 0 ∧ ∃ i, (i, Call.read_s_stop true) ∈ s.trace) ∨
  (s.ret = 1 ∧ ∀ i, (i, Call.read_s_stop true) ∉ s.trace)

/-- Facts about the shutdown flag: log entries carry iterations up to the current one;
the flag is set once the handler has run; while the process has not returned all
handler runs lie in the current iteration; the header is evaluated at most once after
a handler run; no dispatch call lies in an iteration after a handler run; and the
iteration after a handler run holds only the header reading the flag set and calls
of `close`. -/
def StopInv (s : State) : Prop :=
  (∀ x ∈ s.trace, x.1 ≤ s.iter) ∧
  ((∃ j, (j, Call.sigterm) ∈ s.trace) → s.s_stop ≠ 0) ∧
  (s.pc ≠ Pc.returned → ∀ j, (j, Call.sigterm) ∈ s.trace → j = s.iter) ∧
  (∀ j, (j, Call.sigterm) ∈ s.trace → s.iter ≤ j + 1) ∧
  (∀ j i c, (j, Call.sigterm) ∈ s.trace → (i, c) ∈ s.trace → c.isDispatch = true → i ≤ j) ∧
  (∀ j c, (j, Call.sigterm) ∈ s.trace → (j + 1, c) ∈ s.trace →
    c = Call.read_s_stop true ∨ ∃ d, c = Call.close d)

/-- A call `accept` that returned a connection. -/
def Call.isAcceptOk : Call → Bool
  | Call.accept _ r => decide (r ≠ -1)
  | _ => false

/-- Facts about the dispatch calls of each iteration: at most one connection is accepted,
each accepted connection has its credentials queried once, and each successful query
is followed by one call of `fork`. -/
def PairInv (s : State) : Prop :=
  (∀ i, countAt Call.isFork i s.trace + (if s.pc = Pc.fork ∧ s.iter = i then 1 else 0) =
    countAt Call.isCredOk i s.trace) ∧
  (∀ i, countAt Call.isCredOk i s.trace + countAt Call.isCredFail i s.trace +
    (if s.pc = Pc.getsockopt ∧ s.iter = i then 1 else 0) = countAt Call.isAcceptOk i s.trace) ∧
  (∀ i, countAt Call.isAcceptOk i s.trace ≤ 1) ∧
  (s.pc = Pc.accept → countAt Call.isAcceptOk s.iter s.trace = 0)

/-- A call of the startup part or of `cleanup:`. -/
def Call.isStartup : Call → Bool
  | Call.report _ => true
  | Call.getgrnam _ => true
  | Call.signal_sigchld => true
  | Call.sigaction_sigterm => true
  | Call.sigaction_sigint => true
  | Call.open_null _ => true
  | Call.unlink _ => true
  | Call.socket _ => true
  | Call.bind _ _ => true
  | Call.listen _ _ => true
  | Call.chown _ _ => true
  | Call.chmod _ _ => true
  | Call.close _ => true
  | _ => false

/-- State of the startup part after the setup steps `l`, at program point `pc`: it is
in iteration 0 with `ret = 1` and the flag clear, and its log holds startup calls
only. -/
def StartupAt (pc : Pc) (l : List Call) (s : State) : Prop :=
  s.iter = 0 ∧ s.ret = 1 ∧ s.s_stop = 0 ∧ s.pc = pc ∧
  (∀ x ∈ s.trace, x.1 = 0 ∧ x.2.isStartup = true) ∧ setupCalls s.trace = l

/-- A child that has exited has exited with status 1. -/
def ExitOne (s : State) : Prop :=
  ∀ n, s.pc = Pc.child_exited n → n = 1

/-- A configuration: the options `--socket`, `--scd`, `--socket-group`, `--scd-config`. -/
def exampleCfg : Config :=
  { socket_name := "/tmp/S.scd", scd_bin := "/usr/bin/gnupg-pkcs11-scd",
    socket_group := "scard", scd_config := some "/etc/scd.conf" }

/-- A startup in which every call succeeds (there is no stale socket file, so `unlink`
fails): `/dev/null` is descriptor 3 and the listening socket descriptor 4. -/
def exampleEnv : StartupEnv :=
  { getgrnam := some 50, open_null := 3, unlink := -1, socket := 4, bind := 0,
    listen := 0, chown := 0, chmod := 0 }

/-- The entries of the log from iteration `i` on. -/
def since (i : Nat) (tr : List (Nat × Call)) : List (Nat × Call) :=
  tr.filter (fun x => decide (i ≤ x.1))

/-- Some call that dispatches a connection is logged after a run of the handler
`sigterm`. -/
def dispatchAfterStop (tr : List (Nat × Call)) : Bool :=
  (tr.dropWhile (fun x => decide (x.2 ≠ Call.sigterm))).any (fun x => x.2.isDispatch)

/-- A socket path of 107 bytes. -/
def path107 : String := String.mk ('/' :: List.replicate 106 'a')

/-- Every iteration after startup has the reading of the flag at its header in the log. -/
def HeaderInv (s : State) : Prop :=
  s.iter = 0 ∨ ∃ b, (s.iter, Call.read_s_stop b) ∈ s.trace

theorem closeFrom_trace (s : State) (i : Int) (n : Nat) :
    (closeFrom s i n).trace = s.trace ++ closeLog s.iter i n := by
  induction n generalizing s i with
  | zero => simp [closeFrom, closeLog]
  | succ n ih => simp [closeFrom, closeLog, ih, closeFd, log]

theorem closeFrom_fields (s : State) (i : Int) (n : Nat) :
    (closeFrom s i n).pc = s.pc ∧ (closeFrom s i n).iter = s.iter ∧
    (closeFrom s i n).s_stop = s.s_stop ∧ (closeFrom s i n).ret = s.ret ∧
    (closeFrom s i n).argv = s.argv ∧ (closeFrom s i n).accepted = s.accepted ∧
    (closeFrom s i n).uid = s.uid := by
  induction n generalizing s i with
  | zero => simp [closeFrom]
  | succ n ih => simp [closeFrom, ih, closeFd, log]

theorem mem_closeLog {it : Nat} {i : Int} {n : Nat} {x : Nat × Call}
    (h : x ∈ closeLog it i n) : x.1 = it ∧ ∃ d, x.2 = Call.close d := by
  induction n generalizing i with
  | zero => simp [closeLog] at h
  | succ n ih =>
    simp only [closeLog, List.mem_cons] at h
    rcases h with h | h
    · subst h
      exact ⟨rfl, i, rfl⟩
    · exact ih h

theorem closes_cleanupLog (s : State) : Closes s.iter (cleanupLog s) := by
  intro x hx
  unfold cleanupLog at hx
  split_ifs at hx <;> simp at hx
  · rcases hx with h | h <;> subst h <;> simp
  · subst hx; simp
  · subst hx; simp

theorem closes_cleanup1Log (s : State) : Closes s.iter (cleanup1Log s) := by
  intro x hx
  unfold cleanup1Log at hx
  split_ifs at hx <;> simp at hx
  subst hx; simp

theorem closes_closeLog (it : Nat) (i : Int) (n : Nat) : Closes it (closeLog it i n) :=
  fun _ hx => mem_closeLog hx

@[simp] theorem cleanup_trace (s : State) : (cleanup s).trace = s.trace ++ cleanupLog s := by
  unfold cleanup cleanupLog
  split_ifs <;> simp_all [closeFd, log]

@[simp] theorem cleanup_pc (s : State) : (cleanup s).pc = Pc.returned := rfl

@[simp] theorem cleanup_ret (s : State) : (cleanup s).ret = s.ret := by
  simp only [cleanup, closeFd, log]; split_ifs <;> rfl

@[simp] theorem cleanup_iter (s : State) : (cleanup s).iter = s.iter := by
  simp only [cleanup, closeFd, log]; split_ifs <;> rfl

@[simp] theorem cleanup_s_stop (s : State) : (cleanup s).s_stop = s.s_stop := by
  simp only [cleanup, closeFd, log]; split_ifs <;> rfl

@[simp] theorem cleanup1_trace (s : State) : (cleanup1 s).trace = s.trace ++ cleanup1Log s := by
  unfold cleanup1 cleanup1Log
  split_ifs <;> simp_all [closeFd, log]

@[simp] theorem cleanup1_pc (s : State) : (cleanup1 s).pc = Pc.header := rfl

@[simp] theorem cleanup1_ret (s : State) : (cleanup1 s).ret = s.ret := by
  unfold cleanup1; split_ifs <;> simp [closeFd, log]

@[simp] theorem cleanup1_iter (s : State) : (cleanup1 s).iter = s.iter := by
  unfold cleanup1; split_ifs <;> simp [closeFd, log]

@[simp] theorem cleanup1_s_stop (s : State) : (cleanup1 s).s_stop = s.s_stop := by
  unfold cleanup1; split_ifs <;> simp [closeFd, log]

@[simp] theorem closeLoop_trace (s : State) (lim : Int) :
    (closeLoop s lim).trace = s.trace ++ closeLog s.iter 3 (lim - 3).toNat :=
  closeFrom_trace s 3 _

@[simp] theorem closeLoop_pc (s : State) (lim : Int) : (closeLoop s lim).pc = s.pc :=
  (closeFrom_fields s 3 _).1

@[simp] theorem closeLoop_iter (s : State) (lim : Int) : (closeLoop s lim).iter = s.iter :=
  (closeFrom_fields s 3 _).2.1

@[simp] theorem closeLoop_s_stop (s : State) (lim : Int) :
    (closeLoop s lim).s_stop = s.s_stop :=
  (closeFrom_fields s 3 _).2.2.1

@[simp] theorem closeLoop_ret (s : State) (lim : Int) : (closeLoop s lim).ret = s.ret :=
  (closeFrom_fields s 3 _).2.2.2.1

@[simp] theorem closeLoop_argv (s : State) (lim : Int) : (closeLoop s lim).argv = s.argv :=
  (closeFrom_fields s 3 _).2.2.2.2.1

@[simp] theorem mem_cleanupLog (s : State) (x : Nat × Call) :
    x ∈ cleanupLog s ↔
      (s.null ≠ -1 ∧ x = (s.iter, Call.close s.null)) ∨
      (s.fd ≠ -1 ∧ x = (s.iter, Call.close s.fd)) := by
  unfold cleanupLog
  split_ifs <;> simp_all

@[simp] theorem mem_cleanup1Log (s : State) (x : Nat × Call) :
    x ∈ cleanup1Log s ↔ (s.accepted ≠ -1 ∧ x = (s.iter, Call.close s.accepted)) := by
  unfold cleanup1Log
  split_ifs <;> simp_all

@[simp] theorem mem_closeLog_iff (it : Nat) (i : Int) (n : Nat) (x : Nat × Call) :
    x ∈ closeLog it i n ↔ ∃ k : Nat, k < n ∧ x = (it, Call.close (i + k)) := by
  induction n generalizing i with
  | zero => simp [closeLog]
  | succ n ih =>
    simp only [closeLog, List.mem_cons, ih]
    constructor
    · rintro (h | ⟨k, hk, h⟩)
      · exact ⟨0, by omega, by simp [h]⟩
      · exact ⟨k + 1, by omega, by rw [h]; push_cast; congr 2; ring⟩
    · rintro ⟨k, hk, h⟩
      cases k with
      | zero => left; simpa using h
      | succ k => right; exact ⟨k, by omega, by rw [h]; push_cast; congr 2; ring⟩

theorem retInv_step (sys : Sys) (cfg : Config) (s : State) (e : Ev) (h : RetInv s) :
    RetInv (step sys cfg s e) := by
  unfold step
  split
  · exact h
  · exact h
  · exact h
  all_goals
    rcases h with ⟨h1, _⟩ | ⟨h1, h2⟩
    · simp_all
    · try dsimp only
      try split_ifs
      all_goals simp_all [RetInv, log, childExit, dup2, sigterm]

theorem stopInv_extend {s s' : State} (h : StopInv s) (hpc : s.pc ≠ Pc.returned)
    (hi : s'.iter = s.iter) (hs : s'.s_stop = s.s_stop)
    (ht : ∀ x ∈ s'.trace, x ∈ s.trace ∨ (x.1 = s.iter ∧ x.2 ≠ Call.sigterm)) :
    StopInv s' := by
  obtain ⟨hA, hD, hC, hE, hB, hF⟩ := h
  have old : ∀ j, (j, Call.sigterm) ∈ s'.trace → (j, Call.sigterm) ∈ s.trace := by
    intro j hj
    rcases ht _ hj with h1 | ⟨_, h1⟩
    · exact h1
    · exact absurd rfl h1
  refine ⟨?_, ?_, ?_, ?_, ?_, ?_⟩
  · intro x hx
    rw [hi]
    rcases ht x hx with h1 | ⟨h1, _⟩
    · exact hA x h1
    · omega
  · rintro ⟨j, hj⟩
    rw [hs]
    exact hD ⟨j, old j hj⟩
  · intro _ j hj
    rw [hi]
    exact hC hpc j (old j hj)
  · intro j hj
    rw [hi]
    exact hE j (old j hj)
  · intro j i c hj hc hd
    have hj' := hC hpc j (old j hj)
    rcases ht _ hc with h1 | ⟨h1, _⟩
    · exact hB j i c (old j hj) h1 hd
    · simp only at h1
      omega
  · intro j c hj hc
    have hj' := hC hpc j (old j hj)
    rcases ht _ hc with h1 | ⟨h1, _⟩
    · exact hF j c (old j hj) h1
    · simp only at h1
      omega

theorem stopInv_step (sys : Sys) (cfg : Config) (s : State) (e : Ev) (h : StopInv s) :
    StopInv (step sys cfg s e) := by
  unfold step
  split
  · exact h
  · exact h
  · exact h
  · -- the handler `sigterm`
    rename_i hr _ _
    obtain ⟨hA, hD, hC, hE, hB, hF⟩ := h
    have hpc : s.pc ≠ Pc.returned := fun hp => hr hp
    simp only [StopInv, sigterm, log, List.mem_append, List.mem_singleton, Prod.mk.injEq,
      and_true]
    refine ⟨?_, ?_, ?_, ?_, ?_, ?_⟩
    · rintro x (hx | hx)
      · exact hA x hx
      · rw [hx]
    · intro _
      decide
    · rintro _ j (hj | hj)
      · exact hC hpc j hj
      · exact hj
    · rintro j (hj | hj)
      · exact hE j hj
      · omega
    · rintro j i c (hj | hj) (hc | hc) hd
      · exact hB j i c hj hc hd
      · rw [hc.2] at hd
        exact absurd hd (by decide)
      · have := hA _ hc
        simp only at this
        omega
      · rw [hc.2] at hd
        exact absurd hd (by decide)
    · rintro j c (hj | hj) (hc | hc)
      · exact hF j c hj hc
      · have := hC hpc j hj
        omega
      · have := hA _ hc
        simp only at this
        omega
      · omega
  · -- the loop header
    rename_i hpc
    obtain ⟨hA, hD, hC, hE, hB, hF⟩ := h
    have hne : s.pc ≠ Pc.returned := by rw [hpc]; decide
    dsimp only
    split_ifs with h0
    · simp only [log] at h0
      have hno : ∀ j, (j, Call.sigterm) ∉ s.trace := fun j hj => hD ⟨j, hj⟩ h0
      simp only [StopInv, log, List.mem_append, List.mem_singleton, Prod.mk.injEq]
      refine ⟨?_, ?_, ?_, ?_, ?_, ?_⟩
      · rintro x (hx | hx)
        · exact Nat.le_succ_of_le (hA x hx)
        · rw [hx]
      · rintro ⟨j, hj | hj⟩
        · exact absurd hj (hno j)
        · exact absurd hj.2 (by simp)
      · rintro _ j (hj | hj)
        · exact absurd hj (hno j)
        · exact absurd hj.2 (by simp)
      · rintro j (hj | hj)
        · exact absurd hj (hno j)
        · exact absurd hj.2 (by simp)
      · rintro j i c (hj | hj)
        · exact absurd hj (hno j)
        · exact absurd hj.2 (by simp)
      · rintro j c (hj | hj)
        · exact absurd hj (hno j)
        · exact absurd hj.2 (by simp)
    · simp only [log] at h0
      have hrd : Call.read_s_stop (decide (s.s_stop ≠ 0)) = Call.read_s_stop true := by
        simp [h0]
      simp only [StopInv, log, cleanup_trace, cleanup_pc, cleanup_iter, cleanup_s_stop,
        List.mem_append, List.mem_singleton, mem_cleanupLog, hrd]
      have old : ∀ j, ((j, Call.sigterm) ∈ s.trace ∨ (j, Call.sigterm) = (s.iter + 1,
          Call.read_s_stop true)) ∨ (s.null ≠ -1 ∧ (j, Call.sigterm) = (s.iter + 1,
          Call.close s.null)) ∨ (s.fd ≠ -1 ∧ (j, Call.sigterm) = (s.iter + 1,
          Call.close s.fd)) → (j, Call.sigterm) ∈ s.trace := by
        rintro j ((hj | hj) | ⟨_, hj⟩ | ⟨_, hj⟩)
        · exact hj
        all_goals simp at hj
      refine ⟨?_, ?_, ?_, ?_, ?_, ?_⟩
      · rintro x ((hx | hx) | ⟨_, hx⟩ | ⟨_, hx⟩)
        · exact Nat.le_succ_of_le (hA x hx)
        all_goals rw [hx]
      · intro _
        exact h0
      · intro hx
        exact absurd rfl hx
      · intro j hj
        have := hC hne j (old j hj)
        omega
      · rintro j i c hj ((hc | hc) | ⟨_, hc⟩ | ⟨_, hc⟩) hd
        · exact hB j i c (old j hj) hc hd
        all_goals
          have h2 := (Prod.mk.inj hc).2
          subst h2
          simp [Call.isDispatch] at hd
      · rintro j c hj ((hc | hc) | ⟨_, hc⟩ | ⟨_, hc⟩)
        · have h1 := hC hne j (old j hj)
          have h2 := hA _ hc
          simp only at h2
          omega
        · exact Or.inl (Prod.mk.inj hc).2
        · exact Or.inr ⟨_, (Prod.mk.inj hc).2⟩
        · exact Or.inr ⟨_, (Prod.mk.inj hc).2⟩
  all_goals
    rename_i hpc
    have hne : s.pc ≠ Pc.returned := by rw [hpc]; decide
    try dsimp only
    try split_ifs
    all_goals
      refine stopInv_extend h hne ?_ ?_ ?_
      · simp [log, childExit, dup2]
      · simp [log, childExit, dup2]
      · intro x hx
        simp only [log, childExit, dup2, cleanup_trace, cleanup1_trace,
          closeLoop_trace, cleanup_iter, cleanup1_iter, closeLoop_iter,
          List.mem_append, List.mem_singleton, mem_cleanupLog, mem_cleanup1Log,
          mem_closeLog_iff, List.append_assoc, List.mem_cons] at hx
        aesop

@[simp] theorem countAt_nil (p : Call → Bool) (i : Nat) : countAt p i [] = 0 := rfl

@[simp] theorem countAt_append (p : Call → Bool) (i : Nat) (l1 l2 : List (Nat × Call)) :
    countAt p i (l1 ++ l2) = countAt p i l1 + countAt p i l2 := by
  simp [countAt]

@[simp] theorem countAt_cons (p : Call → Bool) (i j : Nat) (c : Call)
    (l : List (Nat × Call)) :
    countAt p i ((j, c) :: l) = (if j = i ∧ p c = true then 1 else 0) + countAt p i l := by
  simp only [countAt, List.countP_cons]
  split_ifs <;> simp_all <;> omega

theorem countAt_closes {p : Call → Bool} (hp : ∀ d, p (Call.close d) = false) (i : Nat)
    {it : Nat} {l : List (Nat × Call)} (h : Closes it l) : countAt p i l = 0 := by
  unfold countAt
  rw [List.countP_eq_zero]
  intro x hx
  obtain ⟨_, d, hd⟩ := h x hx
  simp [hd, hp]

theorem countAt_of_lt (p : Call → Bool) {i n : Nat} {l : List (Nat × Call)}
    (h : ∀ x ∈ l, x.1 ≤ n) (hi : n < i) : countAt p i l = 0 := by
  unfold countAt
  rw [List.countP_eq_zero]
  intro x hx
  have := h x hx
  have hne : x.1 ≠ i := by omega
  simp [hne]

@[simp] theorem countAt_cleanupLog_fork (i : Nat) (s : State) :
    countAt Call.isFork i (cleanupLog s) = 0 :=
  countAt_closes (fun _ => rfl) i (closes_cleanupLog s)

@[simp] theorem countAt_cleanupLog_credOk (i : Nat) (s : State) :
    countAt Call.isCredOk i (cleanupLog s) = 0 :=
  countAt_closes (fun _ => rfl) i (closes_cleanupLog s)

@[simp] theorem countAt_cleanupLog_credFail (i : Nat) (s : State) :
    countAt Call.isCredFail i (cleanupLog s) = 0 :=
  countAt_closes (fun _ => rfl) i (closes_cleanupLog s)

@[simp] theorem countAt_cleanupLog_acceptOk (i : Nat) (s : State) :
    countAt Call.isAcceptOk i (cleanupLog s) = 0 :=
  countAt_closes (fun _ => rfl) i (closes_cleanupLog s)

@[simp] theorem countAt_cleanup1Log_fork (i : Nat) (s : State) :
    countAt Call.isFork i (cleanup1Log s) = 0 :=
  countAt_closes (fun _ => rfl) i (closes_cleanup1Log s)

@[simp] theorem countAt_cleanup1Log_credOk (i : Nat) (s : State) :
    countAt Call.isCredOk i (cleanup1Log s) = 0 :=
  countAt_closes (fun _ => rfl) i (closes_cleanup1Log s)

@[simp] theorem countAt_cleanup1Log_credFail (i : Nat) (s : State) :
    countAt Call.isCredFail i (cleanup1Log s) = 0 :=
  countAt_closes (fun _ => rfl) i (closes_cleanup1Log s)

@[simp] theorem countAt_cleanup1Log_acceptOk (i : Nat) (s : State) :
    countAt Call.isAcceptOk i (cleanup1Log s) = 0 :=
  countAt_closes (fun _ => rfl) i (closes_cleanup1Log s)

@[simp] theorem countAt_closeLog_fork (i it : Nat) (d : Int) (n : Nat) :
    countAt Call.isFork i (closeLog it d n) = 0 :=
  countAt_closes (fun _ => rfl) i (closes_closeLog _ _ _)

@[simp] theorem countAt_closeLog_credOk (i it : Nat) (d : Int) (n : Nat) :
    countAt Call.isCredOk i (closeLog it d n) = 0 :=
  countAt_closes (fun _ => rfl) i (closes_closeLog _ _ _)

@[simp] theorem countAt_closeLog_credFail (i it : Nat) (d : Int) (n : Nat) :
    countAt Call.isCredFail i (closeLog it d n) = 0 :=
  countAt_closes (fun _ => rfl) i (closes_closeLog _ _ _)

@[simp] theorem countAt_closeLog_acceptOk (i it : Nat) (d : Int) (n : Nat) :
    countAt Call.isAcceptOk i (closeLog it d n) = 0 :=
  countAt_closes (fun _ => rfl) i (closes_closeLog _ _ _)

set_option maxHeartbeats 1000000 in
theorem pairInv_step (sys : Sys) (cfg : Config) (s : State) (e : Ev) (h : PairInv s)
    (hA : ∀ x ∈ s.trace, x.1 ≤ s.iter) : PairInv (step sys cfg s e) := by
  obtain ⟨h1, h2, h3, h4⟩ := h
  have hz := countAt_of_lt Call.isAcceptOk hA (Nat.lt_succ_self _)
  unfold step
  split
  · exact ⟨h1, h2, h3, h4⟩
  · exact ⟨h1, h2, h3, h4⟩
  · exact ⟨h1, h2, h3, h4⟩
  · refine ⟨fun i => ?_, fun i => ?_, fun i => ?_, ?_⟩
    · simpa [sigterm, log, Call.isFork, Call.isCredOk] using h1 i
    · simpa [sigterm, log, Call.isCredFail, Call.isCredOk, Call.isAcceptOk] using h2 i
    · simpa [sigterm, log, Call.isAcceptOk] using h3 i
    · intro hp
      simpa [sigterm, log, Call.isAcceptOk] using h4 hp
  all_goals
    rename_i hpc
    try simp [hpc] at h4
    simp only [hpc] at h1 h2
    try simp only [log]
    try split_ifs
    all_goals
      refine ⟨fun i => ?_, fun i => ?_, fun i => ?_, ?_⟩
      · have := h1 i
        by_cases hi : s.iter = i
        · subst hi
          (simp [log, childExit, dup2, Call.isFork, Call.isCredOk, Call.isCredFail,
            Call.isAcceptOk] at this ⊢) <;>
          first | assumption | omega | (split_ifs at * <;> omega)
        · (simp [hi, log, childExit, dup2, Call.isFork, Call.isCredOk, Call.isCredFail,
            Call.isAcceptOk] at this ⊢) <;>
          first | assumption | omega | (split_ifs at * <;> omega)
      · have := h2 i
        by_cases hi : s.iter = i
        · subst hi
          (simp [log, childExit, dup2, Call.isFork, Call.isCredOk, Call.isCredFail,
            Call.isAcceptOk] at this ⊢) <;>
          first | assumption | omega | (split_ifs at * <;> omega)
        · (simp [hi, log, childExit, dup2, Call.isFork, Call.isCredOk, Call.isCredFail,
            Call.isAcceptOk] at this ⊢) <;>
          first | assumption | omega | (split_ifs at * <;> omega)
      · have := h3 i
        by_cases hi : s.iter = i
        · subst hi
          (simp [log, childExit, dup2, Call.isFork, Call.isCredOk, Call.isCredFail,
            Call.isAcceptOk] at this ⊢) <;>
          first | assumption | omega | (split_ifs at * <;> omega)
        · (simp [hi, log, childExit, dup2, Call.isFork, Call.isCredOk, Call.isCredFail,
            Call.isAcceptOk] at this ⊢) <;>
          first | assumption | omega | (split_ifs at * <;> omega)
      · (simp [log, childExit, dup2, Call.isFork, Call.isCredOk, Call.isCredFail,
          Call.isAcceptOk] at hz ⊢) <;>
        first | assumption | omega | (split_ifs at * <;> omega)

/-- A property that holds at the start and is kept by every transition holds after
every run. -/
theorem run_induction (sys : Sys) (cfg : Config) (P : State → Prop)
    (hstep : ∀ s e, P s → P (step sys cfg s e)) (s : State) (h : P s) (evs : List Ev) :
    P (run sys cfg s evs) := by
  induction evs generalizing s with
  | nil => exact h
  | cons e evs ih => exact ih (step sys cfg s e) (hstep s e h)

/-- A process that has returned stays as it is. -/
theorem run_returned (sys : Sys) (cfg : Config) (s : State) (h : s.pc = Pc.returned)
    (evs : List Ev) : run sys cfg s evs = s := by
  induction evs with
  | nil => rfl
  | cons e evs ih =>
    have hs : step sys cfg s e = s := by
      unfold step
      split <;> simp_all
    simp only [run, List.foldl_cons] at ih ⊢
    rw [hs]
    exact ih

theorem log_trace (s : State) (c : Call) : (log s c).trace = s.trace ++ [(s.iter, c)] := rfl

theorem setupCalls_append (l1 l2 : List (Nat × Call)) :
    setupCalls (l1 ++ l2) = setupCalls l1 ++ setupCalls l2 := by
  simp [setupCalls]

theorem setupCalls_closes {it : Nat} {l : List (Nat × Call)} (h : Closes it l) :
    setupCalls l = [] := by
  unfold setupCalls
  rw [List.filter_eq_nil_iff]
  intro c hc
  rw [List.mem_map] at hc
  obtain ⟨x, hx, rfl⟩ := hc
  obtain ⟨_, d, hd⟩ := h x hx
  simp [hd, Call.isSetup]

theorem startupAt_init : StartupAt Pc.header [] init :=
  ⟨rfl, rfl, rfl, rfl, by simp [init], rfl⟩

theorem startupAt_log {pc : Pc} {l : List Call} {s : State} (h : StartupAt pc l s)
    (c : Call) (hc : c.isStartup = true) :
    StartupAt pc (l ++ if c.isSetup then [c] else []) (log s c) := by
  obtain ⟨h1, h2, h3, h4, h5, h6⟩ := h
  refine ⟨h1, h2, h3, h4, ?_, ?_⟩
  · intro x hx
    rw [log_trace, List.mem_append, List.mem_singleton] at hx
    rcases hx with hx | hx
    · exact h5 x hx
    · rw [hx, h1]
      exact ⟨rfl, hc⟩
  · rw [log_trace, setupCalls_append, h6]
    congr 1
    cases hs : c.isSetup <;> simp [setupCalls, hs]

theorem startupAt_cleanup {pc : Pc} {l : List Call} {s : State} (h : StartupAt pc l s) :
    StartupAt Pc.returned l (cleanup s) := by
  obtain ⟨h1, h2, h3, _, h5, h6⟩ := h
  refine ⟨by simp [h1], by simp [h2], by simp [h3], rfl, ?_, ?_⟩
  · intro x hx
    rw [cleanup_trace, List.mem_append] at hx
    rcases hx with hx | hx
    · exact h5 x hx
    · obtain ⟨hx1, d, hd⟩ := closes_cleanupLog s x hx
      exact ⟨by rw [hx1, h1], by rw [hd]; rfl⟩
  · rw [cleanup_trace, setupCalls_append, h6, setupCalls_closes (closes_cleanupLog s),
      List.append_nil]

/-- The startup part, case by case: what it has logged and where it ends. -/
theorem startup_cases (sys : Sys) (cfg : Config) (env : StartupEnv) :
    (cfg.scd_config = none ∧ StartupAt Pc.returned [] (startup sys cfg env)) ∨
    (cfg.scd_config ≠ none ∧
      (env.getgrnam = none ∨ env.open_null = -1 ∨
        socketNameTooLong sys cfg.socket_name = true) ∧
      StartupAt Pc.returned [Call.getgrnam cfg.socket_group] (startup sys cfg env)) ∨
    (cfg.scd_config ≠ none ∧ env.getgrnam ≠ none ∧ env.open_null ≠ -1 ∧
      socketNameTooLong sys cfg.socket_name = false ∧
      (env.socket = -1 ∨ env.bind = -1 ∨ env.listen = -1 ∨ env.chown = -1 ∨
        env.chmod = -1) ∧
      StartupAt Pc.returned (upToFirstFailure (setupOrder sys cfg env))
        (startup sys cfg env)) ∨
    (startupOk sys cfg env ∧
      StartupAt Pc.header (upToFirstFailure (setupOrder sys cfg env))
        (startup sys cfg env)) := by
  unfold startup
  split
  · rename_i hc
    left
    exact ⟨hc, startupAt_cleanup
      (startupAt_log startupAt_init (Call.report "--scd-config is missing") rfl)⟩
  · rename_i v hc
    have hc' : cfg.scd_config ≠ none := by rw [hc]; simp
    have h1 := startupAt_log startupAt_init (Call.getgrnam cfg.socket_group) rfl
    split
    · rename_i hg
      right; left
      exact ⟨hc', Or.inl hg,
        startupAt_cleanup (startupAt_log h1 (Call.report "cannot resolve group") rfl)⟩
    · rename_i gid hg
      have hg' : env.getgrnam ≠ none := by rw [hg]; simp
      lift_lets
      intro s1 s2 s3 s4 s5 s6 s7 s8 s9 s10
      have h2 : StartupAt Pc.header [Call.getgrnam cfg.socket_group] s2 := h1
      have h3 : StartupAt Pc.header [Call.getgrnam cfg.socket_group] s3 :=
        startupAt_log (startupAt_log (startupAt_log h2 Call.signal_sigchld rfl)
          Call.sigaction_sigterm rfl) Call.sigaction_sigint rfl
      have h3' : StartupAt Pc.header [Call.getgrnam cfg.socket_group]
          { s3 with null := env.open_null,
                    fds := fdOpen s3.fds env.open_null Obj.devnull } := h3
      have h4 : StartupAt Pc.header [Call.getgrnam cfg.socket_group] s4 :=
        startupAt_log h3' (Call.open_null env.open_null) rfl
      have h5 : StartupAt Pc.header [Call.getgrnam cfg.socket_group,
          Call.unlink cfg.socket_name] s5 :=
        startupAt_log h4 (Call.unlink cfg.socket_name) rfl
      have h5' : StartupAt Pc.header [Call.getgrnam cfg.socket_group,
          Call.unlink cfg.socket_name]
          { s5 with fd := env.socket,
                    fds := fdOpen s5.fds env.socket Obj.listener } := h5
      have h6 : StartupAt Pc.header [Call.getgrnam cfg.socket_group,
          Call.unlink cfg.socket_name, Call.socket env.socket] s6 :=
        startupAt_log h5' (Call.socket env.socket) rfl
      have h7 : StartupAt Pc.header [Call.getgrnam cfg.socket_group,
          Call.unlink cfg.socket_name, Call.socket env.socket,
          Call.bind env.socket cfg.socket_name] s7 :=
        startupAt_log h6 (Call.bind env.socket cfg.socket_name) rfl
      have h8 : StartupAt Pc.header [Call.getgrnam cfg.socket_group,
          Call.unlink cfg.socket_name, Call.socket env.socket,
          Call.bind env.socket cfg.socket_name,
          Call.listen env.socket sys.SOMAXCONN] s8 :=
        startupAt_log h7 (Call.listen env.socket sys.SOMAXCONN) rfl
      have h9 : StartupAt Pc.header [Call.getgrnam cfg.socket_group,
          Call.unlink cfg.socket_name, Call.socket env.socket,
          Call.bind env.socket cfg.socket_name,
          Call.listen env.socket sys.SOMAXCONN, Call.chown cfg.socket_name gid] s9 :=
        startupAt_log h8 (Call.chown cfg.socket_name gid) rfl
      have h10 : StartupAt Pc.header [Call.getgrnam cfg.socket_group,
          Call.unlink cfg.socket_name, Call.socket env.socket,
          Call.bind env.socket cfg.socket_name,
          Call.listen env.socket sys.SOMAXCONN, Call.chown cfg.socket_name gid,
          Call.chmod cfg.socket_name 0o660] s10 :=
        startupAt_log h9 (Call.chmod cfg.socket_name 0o660) rfl
      have e4 : s4.null = env.open_null := rfl
      have e6 : s6.fd = env.socket := rfl
      rw [e4, e6]
      split_ifs with c1 c2 c3 c4 c5 c6 c7
      · right; left
        exact ⟨hc', Or.inr (Or.inl c1),
          startupAt_cleanup (startupAt_log h4 (Call.report "open null") rfl)⟩
      · right; left
        exact ⟨hc', Or.inr (Or.inr c2),
          startupAt_cleanup (startupAt_log h4 (Call.report "Socket too long") rfl)⟩
      · right; right; left
        refine ⟨hc', hg', c1, by simpa using c2, Or.inl c3, ?_⟩
        have := startupAt_cleanup (startupAt_log h6 (Call.report "socket") rfl)
        simpa [upToFirstFailure, setupOrder, c3, hg] using this
      · right; right; left
        refine ⟨hc', hg', c1, by simpa using c2, Or.inr (Or.inl c4), ?_⟩
        have := startupAt_cleanup (startupAt_log h7 (Call.report "Cannot bind") rfl)
        simpa [upToFirstFailure, setupOrder, c3, c4, hg] using this
      · right; right; left
        refine ⟨hc', hg', c1, by simpa using c2, Or.inr (Or.inr (Or.inl c5)), ?_⟩
        have := startupAt_cleanup (startupAt_log h8 (Call.report "Cannot listen") rfl)
        simpa [upToFirstFailure, setupOrder, c3, c4, c5, hg] using this
      · right; right; left
        refine ⟨hc', hg', c1, by simpa using c2, Or.inr (Or.inr (Or.inr (Or.inl c6))), ?_⟩
        have := startupAt_cleanup (startupAt_log h9 (Call.report "Cannot chown") rfl)
        simpa [upToFirstFailure, setupOrder, c3, c4, c5, c6, hg] using this
      · right; right; left
        refine ⟨hc', hg', c1, by simpa using c2, Or.inr (Or.inr (Or.inr (Or.inr c7))), ?_⟩
        have := startupAt_cleanup (startupAt_log h10 (Call.report "Cannot chmod") rfl)
        simpa [upToFirstFailure, setupOrder, c3, c4, c5, c6, c7, hg] using this
      · right; right; right
        refine ⟨⟨hc', hg', c1, by simpa using c2, c3, c4, c5, c6, c7⟩, ?_⟩
        have : StartupAt Pc.header _ { s10 with pc := Pc.header } := h10
        simpa [upToFirstFailure, setupOrder, c3, c4, c5, c6, c7, hg] using this

theorem setupCalls_singleton (i : Nat) (c : Call) :
    setupCalls [(i, c)] = if c.isSetup then [c] else [] := by
  cases h : c.isSetup <;> simp [setupCalls, h]

theorem setupCalls_nil : setupCalls [] = [] := rfl

theorem setupCalls_cons (i : Nat) (c : Call) (l : List (Nat × Call)) :
    setupCalls ((i, c) :: l) = (if c.isSetup then [c] else []) ++ setupCalls l := by
  cases h : c.isSetup <;> simp [setupCalls, h]

theorem setupCalls_cleanupLog (s : State) : setupCalls (cleanupLog s) = [] :=
  setupCalls_closes (closes_cleanupLog s)

theorem setupCalls_cleanup1Log (s : State) : setupCalls (cleanup1Log s) = [] :=
  setupCalls_closes (closes_cleanup1Log s)

theorem setupCalls_closeLog (it : Nat) (i : Int) (n : Nat) :
    setupCalls (closeLog it i n) = [] :=
  setupCalls_closes (closes_closeLog it i n)

theorem setupCalls_step (sys : Sys) (cfg : Config) (s : State) (e : Ev) :
    setupCalls (step sys cfg s e).trace = setupCalls s.trace := by
  unfold step
  split
  · rfl
  · rfl
  · rfl
  all_goals
    try dsimp only
    try split_ifs
    all_goals
      simp [log_trace, childExit, dup2, sigterm, setupCalls_append, setupCalls_singleton,
        setupCalls_cons, setupCalls_nil, setupCalls_cleanupLog, setupCalls_cleanup1Log,
        setupCalls_closeLog, Call.isSetup]

theorem startup_at (sys : Sys) (cfg : Config) (env : StartupEnv) :
    ∃ pc l, (pc = Pc.header ∨ pc = Pc.returned) ∧ StartupAt pc l (startup sys cfg env) := by
  rcases startup_cases sys cfg env with ⟨_, h⟩ | ⟨_, _, h⟩ | ⟨_, _, _, _, _, h⟩ | ⟨_, h⟩
  · exact ⟨_, _, Or.inr rfl, h⟩
  · exact ⟨_, _, Or.inr rfl, h⟩
  · exact ⟨_, _, Or.inr rfl, h⟩
  · exact ⟨_, _, Or.inl rfl, h⟩

theorem isStartup_facts {c : Call} (h : c.isStartup = true) :
    c.isDispatch = false ∧ c ≠ Call.sigterm ∧ (∀ b, c ≠ Call.read_s_stop b) ∧
    c.isFork = false ∧ c.isCredOk = false ∧ c.isCredFail = false ∧ c.isAcceptOk = false := by
  cases c <;> simp_all [Call.isStartup, Call.isDispatch, Call.isFork, Call.isCredOk,
    Call.isCredFail, Call.isAcceptOk]

theorem retInv_startup (sys : Sys) (cfg : Config) (env : StartupEnv) :
    RetInv (startup sys cfg env) := by
  obtain ⟨pc, l, _, h1, h2, h3, h4, h5, h6⟩ := startup_at sys cfg env
  right
  refine ⟨h2, fun i hi => ?_⟩
  exact (isStartup_facts (h5 _ hi).2).2.2.1 true rfl

theorem stopInv_startup (sys : Sys) (cfg : Config) (env : StartupEnv) :
    StopInv (startup sys cfg env) := by
  obtain ⟨pc, l, _, h1, h2, h3, h4, h5, h6⟩ := startup_at sys cfg env
  have hno : ∀ j, (j, Call.sigterm) ∉ (startup sys cfg env).trace :=
    fun j hj => (isStartup_facts (h5 _ hj).2).2.1 rfl
  refine ⟨?_, ?_, ?_, ?_, ?_, ?_⟩
  · intro x hx
    rw [(h5 x hx).1]
    exact Nat.zero_le _
  · rintro ⟨j, hj⟩
    exact absurd hj (hno j)
  · intro _ j hj
    exact absurd hj (hno j)
  · intro j hj
    exact absurd hj (hno j)
  · intro j i c hj
    exact absurd hj (hno j)
  · intro j c hj
    exact absurd hj (hno j)

theorem countAt_zero_of_forall {p : Call → Bool} {l : List (Nat × Call)}
    (h : ∀ x ∈ l, p x.2 = false) (i : Nat) : countAt p i l = 0 := by
  unfold countAt
  rw [List.countP_eq_zero]
  intro x hx
  simp [h x hx]

theorem pairInv_startup (sys : Sys) (cfg : Config) (env : StartupEnv) :
    PairInv (startup sys cfg env) := by
  obtain ⟨pc, l, hpc, h1, h2, h3, h4, h5, h6⟩ := startup_at sys cfg env
  have f1 : ∀ i, countAt Call.isFork i (startup sys cfg env).trace = 0 :=
    countAt_zero_of_forall (fun x hx => (isStartup_facts (h5 x hx).2).2.2.2.1)
  have f2 : ∀ i, countAt Call.isCredOk i (startup sys cfg env).trace = 0 :=
    countAt_zero_of_forall (fun x hx => (isStartup_facts (h5 x hx).2).2.2.2.2.1)
  have f3 : ∀ i, countAt Call.isCredFail i (startup sys cfg env).trace = 0 :=
    countAt_zero_of_forall (fun x hx => (isStartup_facts (h5 x hx).2).2.2.2.2.2.1)
  have f4 : ∀ i, countAt Call.isAcceptOk i (startup sys cfg env).trace = 0 :=
    countAt_zero_of_forall (fun x hx => (isStartup_facts (h5 x hx).2).2.2.2.2.2.2)
  have g1 : (startup sys cfg env).pc ≠ Pc.fork := by
    rw [h4]; rcases hpc with h | h <;> rw [h] <;> decide
  have g2 : (startup sys cfg env).pc ≠ Pc.getsockopt := by
    rw [h4]; rcases hpc with h | h <;> rw [h] <;> decide
  refine ⟨?_, ?_, ?_, ?_⟩
  · intro i
    simp [f1, f2, g1]
  · intro i
    simp [f2, f3, f4, g2]
  · intro i
    simp [f4]
  · intro _
    exact f4 _

theorem retInv_main (sys : Sys) (cfg : Config) (env : StartupEnv) (evs : List Ev) :
    RetInv (main sys cfg env evs) :=
  run_induction sys cfg RetInv (retInv_step sys cfg) _ (retInv_startup sys cfg env) evs

theorem stopInv_main (sys : Sys) (cfg : Config) (env : StartupEnv) (evs : List Ev) :
    StopInv (main sys cfg env evs) :=
  run_induction sys cfg StopInv (stopInv_step sys cfg) _ (stopInv_startup sys cfg env) evs

theorem pairInv_main (sys : Sys) (cfg : Config) (env : StartupEnv) (evs : List Ev) :
    PairInv (main sys cfg env evs) :=
  (run_induction sys cfg (fun s => StopInv s ∧ PairInv s)
    (fun s e h => ⟨stopInv_step sys cfg s e h.1, pairInv_step sys cfg s e h.2 h.1.1⟩) _
    ⟨stopInv_startup sys cfg env, pairInv_startup sys cfg env⟩ evs).2

theorem setupCalls_main (sys : Sys) (cfg : Config) (env : StartupEnv) (evs : List Ev) :
    setupCalls (main sys cfg env evs).trace = setupCalls (startup sys cfg env).trace :=
  run_induction sys cfg
    (fun s => setupCalls s.trace = setupCalls (startup sys cfg env).trace)
    (fun s e h => (setupCalls_step sys cfg s e).trans h) _ rfl evs

theorem exitOne_step (sys : Sys) (cfg : Config) (s : State) (e : Ev) (h : ExitOne s) :
    ExitOne (step sys cfg s e) := by
  unfold step
  split
  · exact h
  · exact h
  · exact h
  all_goals
    try dsimp only
    try split_ifs
    all_goals
      intro n hn
      simp_all [log, childExit, sigterm, ExitOne]

theorem exitOne_main (sys : Sys) (cfg : Config) (env : StartupEnv) (evs : List Ev) :
    ExitOne (main sys cfg env evs) := by
  refine run_induction sys cfg ExitOne (exitOne_step sys cfg) _ ?_ evs
  obtain ⟨pc, l, hpc, _, _, _, h4, _, _⟩ := startup_at sys cfg env
  intro n hn
  rw [h4] at hn
  rcases hpc with h | h <;> rw [h] at hn <;> simp at hn

theorem inChild_step (sys : Sys) (cfg : Config) (s : State) (e : Ev)
    (h : s.pc.inChild = true) : (step sys cfg s e).pc.inChild = true := by
  unfold step
  split
  · exact h
  · exact h
  · exact h
  all_goals
    try dsimp only
    try split_ifs
    all_goals simp_all [log, childExit, sigterm, Pc.inChild, dup2]

theorem inChild_run (sys : Sys) (cfg : Config) (s : State) (h : s.pc.inChild = true)
    (evs : List Ev) : (run sys cfg s evs).pc.inChild = true :=
  run_induction sys cfg (fun s => s.pc.inChild = true) (inChild_step sys cfg) s h evs

theorem startup_failed (sys : Sys) (cfg : Config) (env : StartupEnv)
    (h : ¬ startupOk sys cfg env) :
    (startup sys cfg env).pc = Pc.returned ∧ (startup sys cfg env).ret = 1 := by
  rcases startup_cases sys cfg env with ⟨_, h⟩ | ⟨_, _, h⟩ | ⟨_, _, _, _, _, h⟩ | ⟨hok, _⟩
  · exact ⟨h.2.2.2.1, h.2.1⟩
  · exact ⟨h.2.2.2.1, h.2.1⟩
  · exact ⟨h.2.2.2.1, h.2.1⟩
  · exact absurd hok h

theorem main_failed (sys : Sys) (cfg : Config) (env : StartupEnv) (evs : List Ev)
    (h : ¬ startupOk sys cfg env) : main sys cfg env evs = startup sys cfg env :=
  run_returned sys cfg _ (startup_failed sys cfg env h).1 evs

theorem headerInv_step (sys : Sys) (cfg : Config) (s : State) (e : Ev) (h : HeaderInv s) :
    HeaderInv (step sys cfg s e) := by
  unfold step
  split
  · exact h
  · exact h
  · exact h
  all_goals
    try dsimp only
    try split_ifs
    all_goals
      rcases h with h | ⟨b, h⟩
      · simp_all [HeaderInv, log, childExit, dup2, sigterm]
      · cases b <;> simp_all [HeaderInv, log, childExit, dup2, sigterm]

theorem headerInv_main (sys : Sys) (cfg : Config) (env : StartupEnv) (evs : List Ev) :
    HeaderInv (main sys cfg env evs) := by
  refine run_induction sys cfg HeaderInv (headerInv_step sys cfg) _ ?_ evs
  obtain ⟨pc, l, _, h1, _⟩ := startup_at sys cfg env
  exact Or.inl h1

theorem mem_setupCalls {tr : List (Nat × Call)} {x : Nat × Call} (hx : x ∈ tr)
    (hs : x.2.isSetup = true) : x.2 ∈ setupCalls tr := by
  unfold setupCalls
  rw [List.mem_filter, List.mem_map]
  exact ⟨⟨x, hx, rfl⟩, hs⟩

/-- A child that has exited stays as it is. -/
theorem run_exited (sys : Sys) (cfg : Config) (s : State) (n : Int)
    (h : s.pc = Pc.child_exited n) (evs : List Ev) : run sys cfg s evs = s := by
  induction evs with
  | nil => rfl
  | cons e evs ih =>
    have hs : step sys cfg s e = s := by
      unfold step
      split <;> simp_all
    simp only [run, List.foldl_cons] at ih ⊢
    rw [hs]
    exact ih

theorem toInt32_of_small (n : Nat) (h : n < 2 ^ 31) : toInt32 n = (n : Int) := by
  unfold toInt32
  have h1 : n % 2 ^ 32 = n := Nat.mod_eq_of_lt (by omega)
  rw [h1, if_pos h]

/-- For a user id below 2^31 the string written by `sprintf` is its decimal
representation. -/
theorem uid_string_of_small (uid : Nat) (h : uid < 2 ^ 31) : uid_string uid = Nat.repr uid := by
  unfold uid_string fmt_d
  rw [toInt32_of_small uid h]
  simp

/-- For a user id from 2^31 on the string written by `sprintf` starts with a minus sign:
it is the decimal representation of `uid - 2^32`. -/
theorem uid_string_of_large (uid : Nat) (h1 : 2 ^ 31 ≤ uid) (h2 : uid < 2 ^ 32) :
    uid_string uid = "-" ++ Nat.repr (2 ^ 32 - uid) := by
  have e : uid % 2 ^ 32 = uid := Nat.mod_eq_of_lt h2
  have ht : toInt32 uid = (uid : Int) - 2 ^ 32 := by
    unfold toInt32
    rw [e, if_neg (by omega)]
  have hneg : ((uid : Int) - 2 ^ 32) < 0 := by omega
  have habs : ((uid : Int) - 2 ^ 32).natAbs = 2 ^ 32 - uid := by omega
  unfold uid_string fmt_d
  rw [ht, if_pos hneg, habs]

/-- The argument vector the child builds: the fixed arguments, the configuration file,
and the string that `sprintf` wrote for the user id of the connection. -/
theorem child_argv (sys : Sys) (cfg : Config) (s : State) (r : Int) (lim : Nat)
    (c : String) (hp : s.pc = Pc.child_getrlimit) (hr : r ≠ -1)
    (hc : cfg.scd_config = some c) :
    (step sys cfg s (Ev.step r lim)).pc = Pc.child_execl ∧
    (step sys cfg s (Ev.step r lim)).argv =
      [cfg.scd_bin, "--multi-server", "--options", c, "--uid-acl", uid_string s.uid] := by
  simp [step, hp, hr, hc, log, dup2, execlArgv]

/-- The path check of `main` rejects a path exactly when its length plus one is at
least the size of `sun_path`. -/
theorem socketNameTooLong_iff (sys : Sys) (p : String) :
    socketNameTooLong sys p = true ↔ sys.sizeof_sun_path ≤ strlen p + 1 := by
  simp [socketNameTooLong]

/-- A path that passes the check fits the buffer, terminating NUL included. -/
theorem accepted_path_fits (sys : Sys) (p : String) (h : socketNameTooLong sys p = false) :
    strlen p + 1 < sys.sizeof_sun_path := by
  simpa [socketNameTooLong] using h

theorem zombiePids_eraseP (t : List Child) (pid : Nat) (h : pid ∈ zombiePids t) :
    (zombiePids (t.eraseP (fun c => c.zombie && c.pid == pid))).length + 1 =
      (zombiePids t).length := by
  induction t with
  | nil => simp [zombiePids] at h
  | cons c t ih =>
    by_cases hz : c.zombie = true
    · by_cases hp : c.pid = pid
      · simp [List.eraseP_cons, hz, hp, zombiePids]
      · have h' : pid ∈ zombiePids t := by
          simp [zombiePids, hz] at h
          rcases h with h | h
          · exact absurd h.symm hp
          · simpa [zombiePids] using h
        have := ih h'
        simp [List.eraseP_cons, hz, hp, zombiePids] at this ⊢
        omega
    · have h' : pid ∈ zombiePids t := by
        simpa [zombiePids, hz] using h
      have := ih h'
      simp [List.eraseP_cons, hz, zombiePids] at this ⊢
      omega

/-- One run of the handler `sigchld` reaps exactly one terminated child, whichever the
kernel picks. -/
theorem sigchld_reaps_one (pick : Nat) (t : List Child) :
    (zombiePids (sigchld pick t)).length = (zombiePids t).length - 1 := by
  unfold sigchld wait
  split
  · rename_i h
    simp [h]
  · rename_i p ps h
    simp only []
    have hm : (p :: ps).getD (pick % (ps.length + 1)) p ∈ zombiePids t := by
      rw [h, List.getD_eq_getElem?_getD]
      have hlt : pick % (ps.length + 1) < (p :: ps).length := by
        simp only [List.length_cons]
        exact Nat.mod_lt _ (Nat.succ_pos _)
      rw [List.getElem?_eq_getElem hlt]
      exact List.getElem_mem _
    have := zombiePids_eraseP t _ hm
    omega

/-- Claim C1 (refuted on the code): the last argument of the child is the decimal
representation of the peer user id only below 2^31. A peer with user id 3000000000 is
accepted, its credentials are read, and the child calls `execl` with the argument
`-1294967296` after `--uid-acl`, while the decimal representation of the user id is
`3000000000`: `sprintf` formats the unsigned `ucred.uid` with `%d`. -/
theorem uid_acl_of_uid_above_int_max :
    since 1 (main linux exampleCfg exampleEnv
      [Ev.step 0 0, Ev.step 5 0, Ev.step 0 3000000000, Ev.step 0 0, Ev.step 0 8,
        Ev.step 0 0]).trace =
      [(1, Call.read_s_stop false), (1, Call.accept 4 5), (1, Call.getsockopt 5 0),
        (1, Call.fork 0), (1, Call.getrlimit 0), (1, Call.dup2 5 0), (1, Call.dup2 5 1),
        (1, Call.close 3), (1, Call.close 4), (1, Call.close 5), (1, Call.close 6),
        (1, Call.close 7),
        (1, Call.execl "/usr/bin/gnupg-pkcs11-scd" ["/usr/bin/gnupg-pkcs11-scd",
          "--multi-server", "--options", "/etc/scd.conf", "--uid-acl", "-1294967296"])] ∧
    Nat.repr 3000000000 = "3000000000" := by
  decide

/-- Claim C2: in every run and for every loop iteration `i`, the number of calls of
`fork` made for the connection of iteration `i` equals the number of successful
credential queries of that iteration (one call is still to come while the process
stands right before `fork`), which is at most one; an iteration whose credential
query failed has no call of `fork`; every query belongs to the one connection accepted
in its iteration. A failed query leads to the loop header without exit, no `fork`
is logged for the iteration, and with the flag clear the next step accepts again in
the next iteration. -/
theorem one_fork_per_credential (sys : Sys) (cfg : Config) (env : StartupEnv)
    (evs : List Ev) (i : Nat) :
    (countAt Call.isFork i (main sys cfg env evs).trace +
        (if (main sys cfg env evs).pc = Pc.fork ∧ (main sys cfg env evs).iter = i
          then 1 else 0) =
      countAt Call.isCredOk i (main sys cfg env evs).trace) ∧
    countAt Call.isCredOk i (main sys cfg env evs).trace ≤ 1 ∧
    (0 < countAt Call.isCredFail i (main sys cfg env evs).trace →
      countAt Call.isFork i (main sys cfg env evs).trace = 0) ∧
    (countAt Call.isCredOk i (main sys cfg env evs).trace +
        countAt Call.isCredFail i (main sys cfg env evs).trace ≤
      countAt Call.isAcceptOk i (main sys cfg env evs).trace) ∧
    countAt Call.isAcceptOk i (main sys cfg env evs).trace ≤ 1 ∧
    ((main sys cfg env evs).pc = Pc.getsockopt → ∀ aux,
      (step sys cfg (main sys cfg env evs) (Ev.step (-1) aux)).pc = Pc.header ∧
      exitStatus (step sys cfg (main sys cfg env evs) (Ev.step (-1) aux)) = none ∧
      countAt Call.isFork (main sys cfg env evs).iter
        (step sys cfg (main sys cfg env evs) (Ev.step (-1) aux)).trace = 0 ∧
      ((main sys cfg env evs).s_stop = 0 → ∀ r a,
        (step sys cfg (step sys cfg (main sys cfg env evs) (Ev.step (-1) aux))
          (Ev.step r a)).pc = Pc.accept ∧
        (step sys cfg (step sys cfg (main sys cfg env evs) (Ev.step (-1) aux))
          (Ev.step r a)).iter = (main sys cfg env evs).iter + 1)) := by
  obtain ⟨h1, h2, h3, _⟩ := pairInv_main sys cfg env evs
  have a1 := h1 i
  have a2 := h2 i
  have a3 := h3 i
  have b1 := h1 (main sys cfg env evs).iter
  have b2 := h2 (main sys cfg env evs).iter
  have b3 := h3 (main sys cfg env evs).iter
  generalize main sys cfg env evs = s at a1 a2 a3 b1 b2 b3
  refine ⟨a1, ?_, ?_, ?_, a3, ?_⟩
  · split_ifs at a2 <;> omega
  · intro hf
    split_ifs at a1 a2 <;> omega
  · split_ifs at a2 <;> omega
  · intro hp aux
    simp only [hp, true_and, if_true] at b1 b2
    have c1 : countAt Call.isFork s.iter s.trace = 0 := by
      simp at b1 b2
      omega
    refine ⟨?_, ?_, ?_, ?_⟩
    · simp [step, hp, log]
    · simp [step, hp, log, exitStatus]
    · simp [step, hp, log, Call.isFork, c1]
    · intro hs r a
      simp [step, hp, log, hs]

/-- Witness for C2: a first connection whose credential query fails, then a second
connection whose query succeeds and for which `fork` returns the child pid 77. The
first iteration has a failed query and no `fork`; the second has one `fork`; and
at the pending query of the first connection a failure leads to the loop header. -/
theorem one_fork_per_credential_witness :
    (0 < countAt Call.isCredFail 1 (main linux exampleCfg exampleEnv
        [Ev.step 0 0, Ev.step 5 0, Ev.step (-1) 0, Ev.step 0 0, Ev.step 5 0,
          Ev.step 0 1000, Ev.step 77 0]).trace ∧
      countAt Call.isFork 1 (main linux exampleCfg exampleEnv
        [Ev.step 0 0, Ev.step 5 0, Ev.step (-1) 0, Ev.step 0 0, Ev.step 5 0,
          Ev.step 0 1000, Ev.step 77 0]).trace = 0) ∧
    countAt Call.isFork 2 (main linux exampleCfg exampleEnv
        [Ev.step 0 0, Ev.step 5 0, Ev.step (-1) 0, Ev.step 0 0, Ev.step 5 0,
          Ev.step 0 1000, Ev.step 77 0]).trace = 1 ∧
    ((main linux exampleCfg exampleEnv [Ev.step 0 0, Ev.step 5 0]).pc = Pc.getsockopt ∧
      (step linux exampleCfg (main linux exampleCfg exampleEnv [Ev.step 0 0, Ev.step 5 0])
        (Ev.step (-1) 0)).pc = Pc.header) :=
  ⟨⟨by decide, (one_fork_per_credential linux exampleCfg exampleEnv
      [Ev.step 0 0, Ev.step 5 0, Ev.step (-1) 0, Ev.step 0 0, Ev.step 5 0,
        Ev.step 0 1000, Ev.step 77 0] 1).2.2.1 (by decide)⟩,
    by decide,
    ⟨by decide, ((one_fork_per_credential linux exampleCfg exampleEnv
      [Ev.step 0 0, Ev.step 5 0] 1).2.2.2.2.2 (by decide) 0).1⟩⟩

/-- Claim C4 (refuted on the code): when `fork` fails the parent returns 1 after closing
`/dev/null` (3) and the listening socket (4) only; the accepted descriptor 5 is never
closed and is still open when `main` returns. When `fork` succeeds (child pid 77)
the parent closes descriptor 5 before the next evaluation of the loop header. -/
theorem fork_failure_skips_close :
    (main linux exampleCfg exampleEnv
      [Ev.step 0 0, Ev.step 5 0, Ev.step 0 1000, Ev.step (-1) 0]).pc = Pc.returned ∧
    (main linux exampleCfg exampleEnv
      [Ev.step 0 0, Ev.step 5 0, Ev.step 0 1000, Ev.step (-1) 0]).ret = 1 ∧
    since 1 (main linux exampleCfg exampleEnv
      [Ev.step 0 0, Ev.step 5 0, Ev.step 0 1000, Ev.step (-1) 0]).trace =
      [(1, Call.read_s_stop false), (1, Call.accept 4 5), (1, Call.getsockopt 5 0),
        (1, Call.fork (-1)), (1, Call.report "fork"), (1, Call.close 3),
        (1, Call.close 4)] ∧
    (main linux exampleCfg exampleEnv
      [Ev.step 0 0, Ev.step 5 0, Ev.step 0 1000, Ev.step (-1) 0]).fds 5 =
      some (Obj.conn 1) ∧
    since 1 (main linux exampleCfg exampleEnv
      [Ev.step 0 0, Ev.step 5 0, Ev.step 0 1000, Ev.step 77 0]).trace =
      [(1, Call.read_s_stop false), (1, Call.accept 4 5), (1, Call.getsockopt 5 0),
        (1, Call.fork 77), (1, Call.close 5)] := by
  decide

/-- Counterexample to C5 as stated: SIGTERM arrives after the loop header has read the
flag clear and before `accept` returns; the handler sets the flag, and afterwards a
connection is accepted (descriptor 5) and a child is spawned (pid 77). The loop stops
at the next evaluation of the header. -/
theorem dispatch_after_shutdown_flag :
    since 1 (main linux exampleCfg exampleEnv
      [Ev.step 0 0, Ev.sigterm, Ev.step 5 0, Ev.step 0 1000, Ev.step 77 0,
        Ev.step 0 0]).trace =
      [(1, Call.read_s_stop false), (1, Call.sigterm), (1, Call.accept 4 5),
        (1, Call.getsockopt 5 0), (1, Call.fork 77), (1, Call.close 5),
        (2, Call.read_s_stop true), (2, Call.close 3), (2, Call.close 4)] ∧
    dispatchAfterStop (main linux exampleCfg exampleEnv
      [Ev.step 0 0, Ev.sigterm, Ev.step 5 0, Ev.step 0 1000, Ev.step 77 0,
        Ev.step 0 0]).trace = true := by
  decide

/-- Claim C5 as amended: in every run, for every run of the handler `sigterm` logged in
iteration `j`: the flag stays set; the loop header is evaluated at most once more
(the iteration counter is at most `j + 1`); every call of `accept`, `getsockopt` and
`fork` lies in an iteration up to `j`, so none is made in a later iteration; the
iteration `j + 1` holds only the header reading the flag set and calls of `close`
(no child is signalled or waited for); and once the header has been evaluated again
`main` has returned 0. -/
theorem shutdown_stops_at_next_header (sys : Sys) (cfg : Config) (env : StartupEnv)
    (evs : List Ev) (j : Nat) (h : (j, Call.sigterm) ∈ (main sys cfg env evs).trace) :
    (main sys cfg env evs).s_stop ≠ 0 ∧
    (main sys cfg env evs).iter ≤ j + 1 ∧
    (∀ i c, (i, c) ∈ (main sys cfg env evs).trace → c.isDispatch = true → i ≤ j) ∧
    (∀ c, (j + 1, c) ∈ (main sys cfg env evs).trace →
      c = Call.read_s_stop true ∨ ∃ d, c = Call.close d) ∧
    ((main sys cfg env evs).iter = j + 1 →
      (main sys cfg env evs).pc = Pc.returned ∧ (main sys cfg env evs).ret = 0) := by
  obtain ⟨_, hD, _, hE, hB, hF⟩ := stopInv_main sys cfg env evs
  refine ⟨hD ⟨j, h⟩, hE j h, fun i c hc hd => hB j i c h hc hd, fun c hc => hF j c h hc, ?_⟩
  intro hi
  rcases headerInv_main sys cfg env evs with h0 | ⟨b, hb⟩
  · omega
  · rw [hi] at hb
    have hb' : b = true := by
      rcases hF j _ h hb with h1 | ⟨d, h1⟩
      · simpa using h1
      · simp at h1
    subst hb'
    rcases retInv_main sys cfg env evs with ⟨h1, h2, _⟩ | ⟨_, h2⟩
    · exact ⟨h1, h2⟩
    · exact absurd hb (h2 _)

/-- Witness for C5 as amended: the run of the counterexample, where the handler runs in
iteration 1; the iteration counter ends at 2 and `main` has returned 0. -/
theorem shutdown_stops_at_next_header_witness :
    (1, Call.sigterm) ∈ (main linux exampleCfg exampleEnv
      [Ev.step 0 0, Ev.sigterm, Ev.step 5 0, Ev.step 0 1000, Ev.step 77 0,
        Ev.step 0 0]).trace ∧
    (main linux exampleCfg exampleEnv
      [Ev.step 0 0, Ev.sigterm, Ev.step 5 0, Ev.step 0 1000, Ev.step 77 0,
        Ev.step 0 0]).iter = 1 + 1 ∧
    (main linux exampleCfg exampleEnv
      [Ev.step 0 0, Ev.sigterm, Ev.step 5 0, Ev.step 0 1000, Ev.step 77 0,
        Ev.step 0 0]).pc = Pc.returned ∧
    (main linux exampleCfg exampleEnv
      [Ev.step 0 0, Ev.sigterm, Ev.step 5 0, Ev.step 0 1000, Ev.step 77 0,
        Ev.step 0 0]).ret = 0 :=
  ⟨by decide, by decide,
    (shutdown_stops_at_next_header linux exampleCfg exampleEnv
      [Ev.step 0 0, Ev.sigterm, Ev.step 5 0, Ev.step 0 1000, Ev.step 77 0,
        Ev.step 0 0] 1 (by decide)).2.2.2.2 (by decide)⟩

/-- Claim C6 (refuted on the code): with two terminated children (pids 101 and 102)
waiting when the handler `sigchld` runs once, exactly one terminated child is left
unreaped afterwards, whichever child the kernel hands to `wait`. -/
theorem one_wait_leaves_zombie (pick : Nat) :
    (zombiePids [{ pid := 101, zombie := true }, { pid := 102, zombie := true }]).length
      = 2 ∧
    (zombiePids (sigchld pick
      [{ pid := 101, zombie := true }, { pid := 102, zombie := true }])).length = 1 := by
  refine ⟨by decide, ?_⟩
  rw [sigchld_reaps_one]
  decide

/-- Claim C7 (refuted on the code): a socket path of 107 bytes fits `sun_path` of 108
bytes with its terminating NUL, yet the check of `main` rejects it: `main` returns 1
having made no setup call beyond the group lookup (no `unlink`, `socket`, `bind`). -/
theorem longest_fitting_path_rejected :
    strlen path107 = 107 ∧
    strlen path107 + 1 ≤ linux.sizeof_sun_path ∧
    socketNameTooLong linux path107 = true ∧
    (main linux { exampleCfg with socket_name := path107 } exampleEnv []).pc =
      Pc.returned ∧
    (main linux { exampleCfg with socket_name := path107 } exampleEnv []).ret = 1 ∧
    setupCalls (main linux { exampleCfg with socket_name := path107 } exampleEnv []).trace =
      [Call.getgrnam "scard"] := by
  decide

/-- Claim C8: in every run that stands at `accept`, a failure with `EINTR` leads to the
loop header with nothing logged but the call itself (no report, no `fork`, no
`close`) and without exit; at the loop header the loop stops with status 0 when the
flag is set and goes to `accept` again when it is clear; a failure of `accept` with an
error other than `EINTR` and `EAGAIN` is reported and `main` returns 1. -/
theorem accept_eintr_is_transient (sys : Sys) (cfg : Config) (env : StartupEnv)
    (evs : List Ev) (h : (main sys cfg env evs).pc = Pc.accept) :
    (step sys cfg (main sys cfg env evs) (Ev.step (-1) sys.EINTR)).pc = Pc.header ∧
    (step sys cfg (main sys cfg env evs) (Ev.step (-1) sys.EINTR)).trace =
      (main sys cfg env evs).trace ++
        [((main sys cfg env evs).iter, Call.accept (main sys cfg env evs).fd (-1))] ∧
    exitStatus (step sys cfg (main sys cfg env evs) (Ev.step (-1) sys.EINTR)) = none ∧
    (∀ s r aux, s.pc = Pc.header → s.s_stop ≠ 0 →
      (step sys cfg s (Ev.step r aux)).pc = Pc.returned ∧
      (step sys cfg s (Ev.step r aux)).ret = 0) ∧
    (∀ s r aux, s.pc = Pc.header → s.s_stop = 0 →
      (step sys cfg s (Ev.step r aux)).pc = Pc.accept) ∧
    (∀ errno, errno ≠ sys.EINTR → errno ≠ sys.EAGAIN →
      (step sys cfg (main sys cfg env evs) (Ev.step (-1) errno)).pc = Pc.returned ∧
      (step sys cfg (main sys cfg env evs) (Ev.step (-1) errno)).ret = 1 ∧
      ((main sys cfg env evs).iter, Call.report "accept") ∈
        (step sys cfg (main sys cfg env evs) (Ev.step (-1) errno)).trace) := by
  have hr : (main sys cfg env evs).ret = 1 := by
    rcases retInv_main sys cfg env evs with ⟨h1, _⟩ | ⟨h1, _⟩
    · rw [h] at h1
      exact absurd h1 (by decide)
    · exact h1
  generalize main sys cfg env evs = s at h hr
  refine ⟨?_, ?_, ?_, ?_, ?_, ?_⟩
  · simp [step, h, log, cleanup1]
  · simp [step, h, log, cleanup1, cleanup1Log]
  · simp [step, h, log, cleanup1, exitStatus]
  · intro t r aux ht hs
    simp [step, ht, log, hs]
  · intro t r aux ht hs
    simp [step, ht, log, hs]
  · intro errno h1 h2
    simp [step, h, log, h1, h2, hr]

/-- Witness for C8: after a successful startup and the first evaluation of the loop
header the process stands at `accept`; `EINTR` leads back to the header, and the
error 24 (`EMFILE`) ends `main` with 1. -/
theorem accept_eintr_is_transient_witness :
    (main linux exampleCfg exampleEnv [Ev.step 0 0]).pc = Pc.accept ∧
    (step linux exampleCfg (main linux exampleCfg exampleEnv [Ev.step 0 0])
      (Ev.step (-1) linux.EINTR)).pc = Pc.header ∧
    (step linux exampleCfg (main linux exampleCfg exampleEnv [Ev.step 0 0])
      (Ev.step (-1) 24)).ret = 1 :=
  ⟨by decide,
    (accept_eintr_is_transient linux exampleCfg exampleEnv [Ev.step 0 0] (by decide)).1,
    ((accept_eintr_is_transient linux exampleCfg exampleEnv [Ev.step 0 0]
      (by decide)).2.2.2.2.2 24 (by decide) (by decide)).2.1⟩

/-- Claim C9: in every run the setup steps logged (group resolution, removal of the
stale file, `socket`, `bind`, `listen`, `chown` to the resolved group, `chmod` to
0660) are a prefix of the steps in that order cut after the first failed step, the
result of the removal not being looked at; when the configuration file is given, the
group resolves, `/dev/null` opens and the path is short enough, they are exactly
those steps; without configuration file no setup step is made; `chown` and `chmod`
are logged only when `socket`, `bind` and `listen` succeeded; and `accept` is logged
only when every checked step succeeded. -/
theorem setup_steps_in_order (sys : Sys) (cfg : Config) (env : StartupEnv)
    (evs : List Ev) :
    setupCalls (main sys cfg env evs).trace <+: upToFirstFailure (setupOrder sys cfg env) ∧
    (cfg.scd_config ≠ none → env.getgrnam ≠ none → env.open_null ≠ -1 →
      socketNameTooLong sys cfg.socket_name = false →
      setupCalls (main sys cfg env evs).trace = upToFirstFailure (setupOrder sys cfg env)) ∧
    (cfg.scd_config = none → setupCalls (main sys cfg env evs).trace = []) ∧
    (∀ x ∈ (main sys cfg env evs).trace,
      ((∃ p g, x.2 = Call.chown p g) ∨ (∃ p m, x.2 = Call.chmod p m)) →
      env.socket ≠ -1 ∧ env.bind ≠ -1 ∧ env.listen ≠ -1) ∧
    (∀ x ∈ (main sys cfg env evs).trace, (∃ fd r, x.2 = Call.accept fd r) →
      startupOk sys cfg env) := by
  have hm := setupCalls_main sys cfg env evs
  have key : ∀ c, c ∈ upToFirstFailure (setupOrder sys cfg env) →
      ((∃ p g, c = Call.chown p g) ∨ (∃ p m, c = Call.chmod p m)) →
      env.socket ≠ -1 ∧ env.bind ≠ -1 ∧ env.listen ≠ -1 := by
    intro c hc hk
    simp only [upToFirstFailure, setupOrder] at hc
    by_cases h1 : env.socket = -1
    · rcases hk with ⟨p, g, rfl⟩ | ⟨p, m, rfl⟩ <;> simp [h1] at hc
    by_cases h2 : env.bind = -1
    · rcases hk with ⟨p, g, rfl⟩ | ⟨p, m, rfl⟩ <;> simp [h1, h2] at hc
    by_cases h3 : env.listen = -1
    · rcases hk with ⟨p, g, rfl⟩ | ⟨p, m, rfl⟩ <;> simp [h1, h2, h3] at hc
    exact ⟨h1, h2, h3⟩
  have acc : ∀ x ∈ (main sys cfg env evs).trace, (∃ fd r, x.2 = Call.accept fd r) →
      startupOk sys cfg env := by
    intro x hx hk
    by_contra hno
    rw [main_failed sys cfg env evs hno] at hx
    obtain ⟨pc, l, _, _, _, _, _, h5, _⟩ := startup_at sys cfg env
    obtain ⟨fd, r, hr⟩ := hk
    have := (h5 x hx).2
    rw [hr] at this
    simp [Call.isStartup] at this
  have chk : ∀ x ∈ (main sys cfg env evs).trace,
      ((∃ p g, x.2 = Call.chown p g) ∨ (∃ p m, x.2 = Call.chmod p m)) →
      x.2 ∈ setupCalls (startup sys cfg env).trace := by
    intro x hx hk
    rw [← hm]
    refine mem_setupCalls hx ?_
    rcases hk with ⟨p, g, h⟩ | ⟨p, m, h⟩ <;> rw [h] <;> rfl
  rw [hm]
  rcases startup_cases sys cfg env with ⟨h0, h⟩ | ⟨h0, h1, h⟩ | ⟨h0, h1, h2, h3, _, h⟩ |
    ⟨⟨h0, h1, h2, h3, _⟩, h⟩
  · have e := h.2.2.2.2.2
    refine ⟨by rw [e]; exact List.nil_prefix, fun c => absurd h0 c, fun _ => e, ?_, acc⟩
    intro x hx hk
    have := chk x hx hk
    rw [e] at this
    simp at this
  · have e := h.2.2.2.2.2
    refine ⟨?_, ?_, fun c => absurd c h0, ?_, acc⟩
    · rw [e]
      simp [upToFirstFailure, setupOrder]
    · intro _ a b c
      rcases h1 with h1 | h1 | h1
      · exact absurd h1 a
      · exact absurd h1 b
      · rw [h1] at c
        exact absurd c (by decide)
    · intro x hx hk
      have := chk x hx hk
      rw [e] at this
      rcases hk with ⟨p, g, hk⟩ | ⟨p, m, hk⟩ <;> rw [hk] at this <;> simp at this
  · have e := h.2.2.2.2.2
    refine ⟨by rw [e], fun _ _ _ _ => e, fun c => absurd c h0, ?_, acc⟩
    intro x hx hk
    have := chk x hx hk
    rw [e] at this
    exact key _ this hk
  · have e := h.2.2.2.2.2
    refine ⟨by rw [e], fun _ _ _ _ => e, fun c => absurd c h0, ?_, acc⟩
    intro x hx hk
    have := chk x hx hk
    rw [e] at this
    exact key _ this hk

/-- Witness for C9: a startup in which `listen` fails. The setup steps logged are the
group lookup, the removal, `socket`, `bind` and `listen`, and nothing after. -/
theorem setup_steps_in_order_witness :
    exampleCfg.scd_config ≠ none ∧
    setupCalls (main linux exampleCfg { exampleEnv with listen := -1 } [Ev.step 0 0]).trace =
      upToFirstFailure (setupOrder linux exampleCfg { exampleEnv with listen := -1 }) ∧
    upToFirstFailure (setupOrder linux exampleCfg { exampleEnv with listen := -1 }) =
      [Call.getgrnam "scard", Call.unlink "/tmp/S.scd", Call.socket 4,
        Call.bind 4 "/tmp/S.scd", Call.listen 4 4096] :=
  ⟨by decide,
    (setup_steps_in_order linux exampleCfg { exampleEnv with listen := -1 }
      [Ev.step 0 0]).2.1 (by decide) (by decide) (by decide) (by decide),
    by decide⟩

/-- Claim C10: in every run, a process has exit status 0 exactly when it is the server
returning from `main` after the loop header has read the flag set; the status is 1
when the configuration file is missing, the group does not resolve, `/dev/null` does
not open, the socket path is too long, or `socket`, `bind`, `listen`, `chown` or
`chmod` fails; when `accept` fails with an error other than `EINTR` and `EAGAIN`; and
when `fork` fails. A child whose `getrlimit` or `execl` fails exits with status 1 and
stays exited, and a child never gets back into the accept loop. -/
theorem exit_status_of_run (sys : Sys) (cfg : Config) (env : StartupEnv)
    (evs : List Ev) :
    (exitStatus (main sys cfg env evs) = some 0 ↔
      (main sys cfg env evs).pc = Pc.returned ∧
      ∃ i, (i, Call.read_s_stop true) ∈ (main sys cfg env evs).trace) ∧
    ((cfg.scd_config = none ∨ env.getgrnam = none ∨ env.open_null = -1 ∨
        socketNameTooLong sys cfg.socket_name = true ∨ env.socket = -1 ∨ env.bind = -1 ∨
        env.listen = -1 ∨ env.chown = -1 ∨ env.chmod = -1) →
      exitStatus (main sys cfg env evs) = some 1) ∧
    ((main sys cfg env evs).pc = Pc.accept → ∀ errno, errno ≠ sys.EINTR →
      errno ≠ sys.EAGAIN →
      exitStatus (step sys cfg (main sys cfg env evs) (Ev.step (-1) errno)) = some 1) ∧
    ((main sys cfg env evs).pc = Pc.fork → ∀ aux,
      exitStatus (step sys cfg (main sys cfg env evs) (Ev.step (-1) aux)) = some 1) ∧
    ((main sys cfg env evs).pc = Pc.child_getrlimit → ∀ aux more,
      (run sys cfg (step sys cfg (main sys cfg env evs) (Ev.step (-1) aux)) more).pc =
        Pc.child_exited 1) ∧
    ((main sys cfg env evs).pc = Pc.child_execl → ∀ aux more,
      (run sys cfg (step sys cfg (main sys cfg env evs) (Ev.step (-1) aux)) more).pc =
        Pc.child_exited 1) ∧
    ((main sys cfg env evs).pc.inChild = true → ∀ more,
      (run sys cfg (main sys cfg env evs) more).pc.inChild = true) := by
  have hret := retInv_main sys cfg env evs
  have hone := exitOne_main sys cfg env evs
  have hfail : ¬ startupOk sys cfg env →
      exitStatus (main sys cfg env evs) = some 1 := by
    intro hno
    rw [main_failed sys cfg env evs hno]
    obtain ⟨h1, h2⟩ := startup_failed sys cfg env hno
    simp [exitStatus, h1, h2]
  refine ⟨?_, ?_, ?_, ?_, ?_, ?_, ?_⟩
  · constructor
    · intro h
      rcases hp : (main sys cfg env evs).pc with _ | _ | _ | _ | _ | _ | _ | n | _ <;>
        simp [exitStatus, hp] at h
      · rcases hret with ⟨_, _, h3⟩ | ⟨h2, _⟩
        · exact ⟨rfl, h3⟩
        · rw [h] at h2
          exact absurd h2 (by decide)
      · have := hone n hp
        omega
    · rintro ⟨hp, i, hi⟩
      rcases hret with ⟨_, h2, _⟩ | ⟨_, h3⟩
      · simp [exitStatus, hp, h2]
      · exact absurd hi (h3 i)
  · intro h
    apply hfail
    rintro ⟨a0, a1, a2, a3, a4, a5, a6, a7, a8⟩
    rcases h with h | h | h | h | h | h | h | h | h
    · exact a0 h
    · exact a1 h
    · exact a2 h
    · rw [h] at a3
      exact absurd a3 (by decide)
    · exact a4 h
    · exact a5 h
    · exact a6 h
    · exact a7 h
    · exact a8 h
  · intro hp errno h1 h2
    have hr : (main sys cfg env evs).ret = 1 := by
      rcases hret with ⟨a, _⟩ | ⟨a, _⟩
      · rw [hp] at a
        exact absurd a (by decide)
      · exact a
    simp [step, hp, log, h1, h2, hr, exitStatus]
  · intro hp aux
    have hr : (main sys cfg env evs).ret = 1 := by
      rcases hret with ⟨a, _⟩ | ⟨a, _⟩
      · rw [hp] at a
        exact absurd a (by decide)
      · exact a
    simp [step, hp, log, hr, exitStatus]
  · intro hp aux more
    rw [run_exited sys cfg _ 1 (by simp [step, hp, log, childExit])]
    simp [step, hp, log, childExit]
  · intro hp aux more
    rw [run_exited sys cfg _ 1 (by simp [step, hp, log, childExit])]
    simp [step, hp, log, childExit]
  · intro hp more
    exact inChild_run sys cfg _ hp more

/-- Witness for C10: without `--scd-config` the exit status is 1; when `fork` fails for
an accepted connection the exit status is 1; a child whose `execl` fails ends with
`exit(1)`; and a run stopped by SIGTERM has exit status 0. -/
theorem exit_status_of_run_witness :
    exitStatus (main linux { exampleCfg with scd_config := none } exampleEnv []) = some 1 ∧
    ((main linux exampleCfg exampleEnv [Ev.step 0 0, Ev.step 5 0, Ev.step 0 1000]).pc =
        Pc.fork ∧
      exitStatus (step linux exampleCfg
        (main linux exampleCfg exampleEnv [Ev.step 0 0, Ev.step 5 0, Ev.step 0 1000])
        (Ev.step (-1) 0)) = some 1) ∧
    ((main linux exampleCfg exampleEnv
        [Ev.step 0 0, Ev.step 5 0, Ev.step 0 1000, Ev.step 0 0, Ev.step 0 8]).pc =
        Pc.child_execl ∧
      (run linux exampleCfg (step linux exampleCfg
        (main linux exampleCfg exampleEnv
          [Ev.step 0 0, Ev.step 5 0, Ev.step 0 1000, Ev.step 0 0, Ev.step 0 8])
        (Ev.step (-1) 0)) [Ev.step 0 0]).pc = Pc.child_exited 1) ∧
    exitStatus (main linux exampleCfg exampleEnv [Ev.sigterm, Ev.step 0 0]) = some 0 :=
  ⟨(exit_status_of_run linux { exampleCfg with scd_config := none } exampleEnv []).2.1
      (Or.inl rfl),
    ⟨by decide, (exit_status_of_run linux exampleCfg exampleEnv
      [Ev.step 0 0, Ev.step 5 0, Ev.step 0 1000]).2.2.2.1 (by decide) 0⟩,
    ⟨by decide, (exit_status_of_run linux exampleCfg exampleEnv
      [Ev.step 0 0, Ev.step 5 0, Ev.step 0 1000, Ev.step 0 0, Ev.step 0 8]).2.2.2.2.2.1
      (by decide) 0 [Ev.step 0 0]⟩,
    (exit_status_of_run linux exampleCfg exampleEnv [Ev.sigterm, Ev.step 0 0]).1.mpr
      ⟨by decide, 1, by decide⟩⟩

end ScdProxy
